import Mathlib

/-!
Verification development for the `l2-protocol` crate of `unitree-lidar-l2`:
a shallow embedding of the binary frame decoder (`Packet::parse` and the
per-kind payload decoders) over byte lists, together with theorems checking
the crate's specification.

Bytes are modelled as `Nat` values (well-formed buffers hold values `< 256`);
machine `u32` values are `Nat` values `< 2 ^ 32`. Rust's fallible results
(`anyhow::Result`) are modelled by `PResult`, which has a third outcome
`panic` covering Rust panics (`bytes::Buf` under-reads and the explicit
`unreachable!` branches), so that totality of the decoder is a provable
statement rather than an assumption.
-/

namespace L2Protocol

/-- A byte buffer: a list of byte values (each `< 256` in well-formed input). -/
abbrev Bytes := List Nat

/-- Decode-error kinds, one constructor per `bail!` site in the crate. -/
inductive ParseError where
  /-- `expected a minimum of {needed} bytes but got {available}` (failed `split_at_checked`). -/
  | insufficientData (needed available : Nat)
  /-- `wrong magic bytes` (frame-header magic mismatch). -/
  | wrongMagicBytes
  /-- `packet is too small to hold any payload` (`checked_sub` underflow). -/
  | tooSmallForPayload
  /-- `payload truncated` (failed `split_off(..payload_len)`). -/
  | payloadTruncated
  /-- `wrong tail` (frame-tail magic mismatch). -/
  | wrongTail
  /-- `CRC mismatch`. -/
  | crcMismatch
  /-- `unknown packet type: {code}`. -/
  | unknownPacketType (code : Nat)
  /-- `unknown command type: {code}` (both `Command` and `UserCmd` dispatch). -/
  | unknownCommandType (code : Nat)
  /-- `unknown standby mode: {code}`. -/
  | unknownStandbyMode (code : Nat)
  /-- `unknown ack status: {code}`. -/
  | unknownAckStatus (code : Nat)
  /-- `ack for unknown packet type: {code}`. -/
  | ackUnknownPacketType (code : Nat)
  /-- `unknown mode flags` (reserved work-mode bits set). -/
  | unknownModeFlags (flags : Nat)
  /-- `device name contained invalid utf-8`. -/
  | invalidUtf8
  /-- `failed to read ...` (a `read_exact` shortfall inside `LidarVersionData::parse`). -/
  | readFailed
deriving DecidableEq, Repr

/-- Result of a decode step: success, a recoverable decode error, or a Rust
panic (modelling `bytes::Buf` under-read panics and `unreachable!`). -/
inductive PResult (α : Type) where
  | ok (a : α)
  | err (e : ParseError)
  | panic
deriving Repr, DecidableEq

def PResult.bind {α β : Type} : PResult α → (α → PResult β) → PResult β
  | .ok a, f => f a
  | .err e, _ => .err e
  | .panic, _ => .panic

instance : Monad PResult where
  pure := PResult.ok
  bind := PResult.bind

@[simp] theorem PResult.ok_bind {α β : Type} (a : α) (f : α → PResult β) :
    PResult.bind (.ok a) f = f a := rfl

@[simp] theorem PResult.err_bind {α β : Type} (e : ParseError) (f : α → PResult β) :
    PResult.bind (.err e) f = .err e := rfl

@[simp] theorem PResult.panic_bind {α β : Type} (f : α → PResult β) :
    PResult.bind .panic f = .panic := rfl

@[simp] theorem PResult.bind_eq {α β : Type} (x : PResult α) (f : α → PResult β) :
    x >>= f = PResult.bind x f := rfl

@[simp] theorem PResult.pure_eq {α : Type} (a : α) : (pure a : PResult α) = .ok a := rfl

/-- `slice::split_at_checked(n)`: `some (first n bytes, rest)` when at least
`n` bytes are available, `none` otherwise. -/
def splitAtChecked (n : Nat) (bs : Bytes) : Option (Bytes × Bytes) :=
  if n ≤ bs.length then some (bs.take n, bs.drop n) else none

/-- `slice::strip_prefix`: removes the leading bytes `pre` or returns `none`. -/
def stripLead : Bytes → Bytes → Option Bytes
  | [], bs => some bs
  | _ :: _, [] => none
  | p :: ps, b :: bs => if b = p then stripLead ps bs else none

/-- Little-endian reassembly of four bytes (`bytes::Buf::get_u32_le`). -/
def deLE4 (b0 b1 b2 b3 : Nat) : Nat :=
  b0 + b1 * 256 + b2 * 65536 + b3 * 16777216

/-- `bytes::Buf::get_u32_le` on a byte slice: panics when fewer than 4 bytes remain. -/
def readU32 : Bytes → PResult (Nat × Bytes)
  | b0 :: b1 :: b2 :: b3 :: rest => .ok (deLE4 b0 b1 b2 b3, rest)
  | _ => .panic

/-- `bytes::Buf::get_u16_le` on a byte slice: panics when fewer than 2 bytes remain. -/
def readU16 : Bytes → PResult (Nat × Bytes)
  | b0 :: b1 :: rest => .ok (b0 + b1 * 256, rest)
  | _ => .panic

/-- `bytes::Buf::get_u8` on a byte slice: panics when no byte remains. -/
def readU8 : Bytes → PResult (Nat × Bytes)
  | b :: rest => .ok (b, rest)
  | _ => .panic

/-- `n` sequential reads with the given primitive reader
(`array::from_fn(|_| bytes.get_..())`, which evaluates in index order). -/
def readSeq (rd : Bytes → PResult (Nat × Bytes)) : Nat → Bytes → PResult (List Nat × Bytes)
  | 0, bs => .ok ([], bs)
  | n + 1, bs =>
    PResult.bind (rd bs) fun (v, bs) =>
      PResult.bind (readSeq rd n bs) fun (vs, bs) =>
        .ok (v :: vs, bs)

/-- `Read::read_exact` into an `n`-byte array: errors (not panics) on shortfall. -/
def readExact (n : Nat) (bs : Bytes) : PResult (Bytes × Bytes) :=
  if n ≤ bs.length then .ok (bs.take n, bs.drop n) else .err .readFailed

/-! ## CRC32/ISO-HDLC

Models `crc_fast::checksum(CrcAlgorithm::Crc32IsoHdlc, _)`: the standard
CRC-32 (ISO 3309 / ITU-T V.42 / Ethernet) — reflected polynomial
`0xEDB88320`, initial value `0xFFFFFFFF`, final XOR `0xFFFFFFFF`. -/

/-- The reflected CRC-32 generator polynomial. -/
def crcPoly : Nat := 0xEDB88320

/-- One bit step: shift right; XOR the polynomial when the dropped bit was set. -/
def crcStep (c : Nat) : Nat :=
  (c / 2) ^^^ (if c % 2 = 1 then crcPoly else 0)

/-- Eight bit steps (one byte's worth). -/
def crcStep8 (c : Nat) : Nat :=
  crcStep (crcStep (crcStep (crcStep (crcStep (crcStep (crcStep (crcStep c)))))))

/-- Absorb one byte: XOR it into the low bits, then run eight bit steps. -/
def crcUpdate (c b : Nat) : Nat := crcStep8 (c ^^^ b)

/-- CRC32/ISO-HDLC of a byte list. -/
def crc32 (data : Bytes) : Nat :=
  (data.foldl crcUpdate 0xFFFFFFFF) ^^^ 0xFFFFFFFF

/-! ## Frame header and tail (frame.rs) -/

/-- `FrameHeader`: the magic bytes are validated and discarded, leaving type and size. -/
structure FrameHeader where
  packet_type : Nat
  packet_size : Nat
deriving Repr, DecidableEq

namespace FrameHeader

/-- `size_of::<FrameHeader>()` = 4 + 4 + 4. -/
def LEN : Nat := 12

/-- `FRAME_HEADER_ARRAY`: every frame starts with these magic bytes. -/
def magic : Bytes := [0x55, 0xAA, 0x05, 0x0A]

/-- `FrameHeader::parse`. -/
def parse (bytes : Bytes) : PResult (FrameHeader × Bytes) :=
  match splitAtChecked LEN bytes with
  | none => .err (.insufficientData LEN bytes.length)
  | some (hd, remainder) =>
    match stripLead magic hd with
    | none => .err .wrongMagicBytes
    | some rest =>
      PResult.bind (readU32 rest) fun (packet_type, rest) =>
        PResult.bind (readU32 rest) fun (packet_size, rest) =>
          if rest.isEmpty then .ok (⟨packet_type, packet_size⟩, remainder)
          else .panic

end FrameHeader

/-- `FrameTail`: crc32, msg_type_check, two reserved bytes; the tail magic is
validated and discarded. -/
structure FrameTail where
  crc32 : Nat
  msg_type_check : Nat
  reserve : Bytes
deriving Repr, DecidableEq

namespace FrameTail

/-- `size_of::<FrameTail>()` = 4 + 4 + 2 + 2. -/
def LEN : Nat := 12

/-- `FRAME_TAIL_ARRAY`: every frame ends with these magic bytes. -/
def magic : Bytes := [0x00, 0xFF]

/-- `FrameTail::parse`. -/
def parse (bytes : Bytes) : PResult (FrameTail × Bytes) :=
  match splitAtChecked LEN bytes with
  | none => .err (.insufficientData LEN bytes.length)
  | some (td, remainder) =>
    PResult.bind (readU32 td) fun (c, rest) =>
      PResult.bind (readU32 rest) fun (mtc, rest) =>
        PResult.bind (readU8 rest) fun (r0, rest) =>
          PResult.bind (readU8 rest) fun (r1, rest) =>
            if rest = magic then .ok (⟨c, mtc, [r0, r1]⟩, remainder)
            else .err .wrongTail

end FrameTail

/-! ## Fixed-layout wire records (info.rs, ack.rs, command.rs, user_ctrl_cmd.rs,
work_mode.rs, version.rs, imu.rs, point_data.rs)

`f32` fields are carried as their raw little-endian 4-byte bit patterns
(a `Nat < 2 ^ 32`): the decoders only reinterpret bytes and never perform
floating-point arithmetic, so the bit pattern is a faithful embedding. -/

/-- `TimeStamp` (8 bytes). -/
structure TimeStamp where
  sec : Nat
  nsec : Nat
deriving Repr, DecidableEq

namespace TimeStamp

def LEN : Nat := 8

/-- `TimeStamp::parse`. -/
def parse (bytes : Bytes) : PResult (TimeStamp × Bytes) :=
  match splitAtChecked LEN bytes with
  | none => .err (.insufficientData LEN bytes.length)
  | some (bs, remainder) =>
    PResult.bind (readU32 bs) fun (sec, bs) =>
      PResult.bind (readU32 bs) fun (nsec, _) =>
        .ok (⟨sec, nsec⟩, remainder)

end TimeStamp

/-- `DataInfo` (16 bytes). -/
structure DataInfo where
  seq : Nat
  payload_size : Nat
  stamp : TimeStamp
deriving Repr, DecidableEq

namespace DataInfo

def LEN : Nat := 16

/-- `DataInfo::parse`. -/
def parse (bytes : Bytes) : PResult (DataInfo × Bytes) :=
  match splitAtChecked LEN bytes with
  | none => .err (.insufficientData LEN bytes.length)
  | some (bs, remainder) =>
    PResult.bind (readU32 bs) fun (seq, bs) =>
      PResult.bind (readU32 bs) fun (payload_size, bs) =>
        PResult.bind (TimeStamp.parse bs) fun (stamp, bs) =>
          if bs.isEmpty then .ok (⟨seq, payload_size, stamp⟩, remainder)
          else .panic

end DataInfo

/-- `LidarAckData` (16 bytes): the raw acknowledgement record. -/
structure LidarAckData where
  packet_type : Nat
  cmd_type : Nat
  cmd_value : Nat
  status : Nat
deriving Repr, DecidableEq

namespace LidarAckData

def LEN : Nat := 16

/-- `LidarAckData::parse`. -/
def parse (bytes : Bytes) : PResult (LidarAckData × Bytes) :=
  match splitAtChecked LEN bytes with
  | none => .err (.insufficientData LEN bytes.length)
  | some (bs, remainder) =>
    PResult.bind (readU32 bs) fun (packet_type, bs) =>
      PResult.bind (readU32 bs) fun (cmd_type, bs) =>
        PResult.bind (readU32 bs) fun (cmd_value, bs) =>
          PResult.bind (readU32 bs) fun (status, bs) =>
            if bs.isEmpty then .ok (⟨packet_type, cmd_type, cmd_value, status⟩, remainder)
            else .panic

end LidarAckData

/-- `LidarCommand` (8 bytes): the raw `(cmd_type, cmd_value)` record in command.rs. -/
structure LidarCommand where
  cmd_type : Nat
  cmd_value : Nat
deriving Repr, DecidableEq

namespace LidarCommand

def LEN : Nat := 8

/-- `LidarCommand::parse`. -/
def parse (bytes : Bytes) : PResult (LidarCommand × Bytes) :=
  match splitAtChecked LEN bytes with
  | none => .err (.insufficientData LEN bytes.length)
  | some (bs, remainder) =>
    PResult.bind (readU32 bs) fun (cmd_type, bs) =>
      PResult.bind (readU32 bs) fun (cmd_value, bs) =>
        if bs.isEmpty then .ok (⟨cmd_type, cmd_value⟩, remainder)
        else .panic

end LidarCommand

/-- `LidarUserCtrlCmd` (8 bytes): the raw `(cmd_type, cmd_value)` record in user_ctrl_cmd.rs. -/
structure LidarUserCtrlCmd where
  cmd_type : Nat
  cmd_value : Nat
deriving Repr, DecidableEq

namespace LidarUserCtrlCmd

def LEN : Nat := 8

/-- `LidarUserCtrlCmd::parse`. -/
def parse (bytes : Bytes) : PResult (LidarUserCtrlCmd × Bytes) :=
  match splitAtChecked LEN bytes with
  | none => .err (.insufficientData LEN bytes.length)
  | some (bs, remainder) =>
    PResult.bind (readU32 bs) fun (cmd_type, bs) =>
      PResult.bind (readU32 bs) fun (cmd_value, bs) =>
        if bs.isEmpty then .ok (⟨cmd_type, cmd_value⟩, remainder)
        else .panic

end LidarUserCtrlCmd

/-- `LidarWorkModeConfig` (4 bytes): the raw mode bit field. -/
structure LidarWorkModeConfig where
  mode : Nat
deriving Repr, DecidableEq

namespace LidarWorkModeConfig

def LEN : Nat := 4

/-- `LidarWorkModeConfig::parse`. -/
def parse (bytes : Bytes) : PResult (LidarWorkModeConfig × Bytes) :=
  match splitAtChecked LEN bytes with
  | none => .err (.insufficientData LEN bytes.length)
  | some (bs, remainder) =>
    PResult.bind (readU32 bs) fun (flags, bs) =>
      if bs.isEmpty then .ok (⟨flags⟩, remainder)
      else .panic

end LidarWorkModeConfig

/-- `LidarVersionData` (80 bytes): raw version record. -/
structure LidarVersionData where
  hw_version : Bytes
  sw_version : Bytes
  name : Bytes
  date : Bytes
  reserve : Bytes
deriving Repr, DecidableEq

namespace LidarVersionData

def LEN : Nat := 80

/-- `LidarVersionData::parse`. -/
def parse (bytes : Bytes) : PResult (LidarVersionData × Bytes) :=
  match splitAtChecked LEN bytes with
  | none => .err (.insufficientData LEN bytes.length)
  | some (bs, remainder) =>
    PResult.bind (readExact 4 bs) fun (hw_version, bs) =>
      PResult.bind (readExact 4 bs) fun (sw_version, bs) =>
        PResult.bind (readExact 24 bs) fun (name, bs) =>
          PResult.bind (readExact 8 bs) fun (date, bs) =>
            PResult.bind (readExact 40 bs) fun (reserve, bs) =>
              if bs.isEmpty then .ok (⟨hw_version, sw_version, name, date, reserve⟩, remainder)
              else .panic

end LidarVersionData

/-- `LidarInsideState` (36 bytes); the seven `f32` fields are raw bit patterns. -/
structure LidarInsideState where
  sys_rotation_period : Nat
  com_rotation_period : Nat
  dirty_index : Nat
  packet_lost_up : Nat
  packet_lost_down : Nat
  apd_temperature : Nat
  apd_voltage : Nat
  laser_voltage : Nat
  imu_temperature : Nat
deriving Repr, DecidableEq

namespace LidarInsideState

def LEN : Nat := 36

/-- `LidarInsideState::parse`. -/
def parse (bytes : Bytes) : PResult (LidarInsideState × Bytes) :=
  match splitAtChecked LEN bytes with
  | none => .err (.insufficientData LEN bytes.length)
  | some (bs, remainder) =>
    PResult.bind (readU32 bs) fun (f1, bs) =>
      PResult.bind (readU32 bs) fun (f2, bs) =>
        PResult.bind (readU32 bs) fun (f3, bs) =>
          PResult.bind (readU32 bs) fun (f4, bs) =>
            PResult.bind (readU32 bs) fun (f5, bs) =>
              PResult.bind (readU32 bs) fun (f6, bs) =>
                PResult.bind (readU32 bs) fun (f7, bs) =>
                  PResult.bind (readU32 bs) fun (f8, bs) =>
                    PResult.bind (readU32 bs) fun (f9, bs) =>
                      if bs.isEmpty then
                        .ok (⟨f1, f2, f3, f4, f5, f6, f7, f8, f9⟩, remainder)
                      else .panic

end LidarInsideState

/-- `LidarCalibParam` (32 bytes); eight `f32` fields as raw bit patterns. -/
structure LidarCalibParam where
  a_axis_dist : Nat
  b_axis_dist : Nat
  theta_angle_bias : Nat
  alpha_angle_bias : Nat
  beta_angle : Nat
  xi_angle : Nat
  range_bias : Nat
  range_scale : Nat
deriving Repr, DecidableEq

namespace LidarCalibParam

def LEN : Nat := 32

/-- `LidarCalibParam::parse`. -/
def parse (bytes : Bytes) : PResult (LidarCalibParam × Bytes) :=
  match splitAtChecked LEN bytes with
  | none => .err (.insufficientData LEN bytes.length)
  | some (bs, remainder) =>
    PResult.bind (readU32 bs) fun (f1, bs) =>
      PResult.bind (readU32 bs) fun (f2, bs) =>
        PResult.bind (readU32 bs) fun (f3, bs) =>
          PResult.bind (readU32 bs) fun (f4, bs) =>
            PResult.bind (readU32 bs) fun (f5, bs) =>
              PResult.bind (readU32 bs) fun (f6, bs) =>
                PResult.bind (readU32 bs) fun (f7, bs) =>
                  PResult.bind (readU32 bs) fun (f8, bs) =>
                    if bs.isEmpty then
                      .ok (⟨f1, f2, f3, f4, f5, f6, f7, f8⟩, remainder)
                    else .panic

end LidarCalibParam

/-- `LidarImuData` (56 bytes); `f32` components as raw bit patterns. -/
structure LidarImuData where
  info : DataInfo
  quaternion : List Nat
  angular_velocity : List Nat
  linear_acceleration : List Nat
deriving Repr, DecidableEq

namespace LidarImuData

def LEN : Nat := 56

/-- `LidarImuData::parse`. -/
def parse (bytes : Bytes) : PResult (LidarImuData × Bytes) :=
  match splitAtChecked LEN bytes with
  | none => .err (.insufficientData LEN bytes.length)
  | some (bs, remainder) =>
    PResult.bind (DataInfo.parse bs) fun (info, bs) =>
      PResult.bind (readSeq readU32 4 bs) fun (quaternion, bs) =>
        PResult.bind (readSeq readU32 3 bs) fun (angular_velocity, bs) =>
          PResult.bind (readSeq readU32 3 bs) fun (linear_acceleration, bs) =>
            if bs.isEmpty then
              .ok (⟨info, quaternion, angular_velocity, linear_acceleration⟩, remainder)
            else .panic

end LidarImuData

/-- `LidarPointData` (1020 bytes); `f32` fields as raw bit patterns. -/
structure LidarPointData where
  info : DataInfo
  state : LidarInsideState
  param : LidarCalibParam
  com_horizontal_angle_start : Nat
  com_horizontal_angle_step : Nat
  scan_period : Nat
  range_min : Nat
  range_max : Nat
  angle_min : Nat
  angle_increment : Nat
  time_increment : Nat
  point_num : Nat
  ranges : List Nat
  intensities : List Nat
deriving Repr, DecidableEq

namespace LidarPointData

def LEN : Nat := 1020

/-- `LidarPointData::parse`. -/
def parse (bytes : Bytes) : PResult (LidarPointData × Bytes) :=
  match splitAtChecked LEN bytes with
  | none => .err (.insufficientData LEN bytes.length)
  | some (bs, remainder) =>
    PResult.bind (DataInfo.parse bs) fun (info, bs) =>
      PResult.bind (LidarInsideState.parse bs) fun (state, bs) =>
        PResult.bind (LidarCalibParam.parse bs) fun (param, bs) =>
          PResult.bind (readU32 bs) fun (g1, bs) =>
            PResult.bind (readU32 bs) fun (g2, bs) =>
              PResult.bind (readU32 bs) fun (g3, bs) =>
                PResult.bind (readU32 bs) fun (g4, bs) =>
                  PResult.bind (readU32 bs) fun (g5, bs) =>
                    PResult.bind (readU32 bs) fun (g6, bs) =>
                      PResult.bind (readU32 bs) fun (g7, bs) =>
                        PResult.bind (readU32 bs) fun (g8, bs) =>
                          PResult.bind (readU32 bs) fun (point_num, bs) =>
                            PResult.bind (readSeq readU16 300 bs) fun (ranges, bs) =>
                              PResult.bind (readSeq readU8 300 bs) fun (intensities, bs) =>
                                if bs.isEmpty then
                                  .ok (⟨info, state, param, g1, g2, g3, g4, g5, g6, g7, g8,
                                        point_num, ranges, intensities⟩, remainder)
                                else .panic

end LidarPointData

/-! ## Semantic decoders: the `TryFrom` dispatch layers -/

/-- `StandbyType` (user_ctrl_cmd.rs). -/
inductive StandbyType where
  | start
  | standby
deriving Repr, DecidableEq

/-- `impl TryFrom<u32> for StandbyType`. -/
def StandbyType.tryFrom (value : Nat) : PResult StandbyType :=
  if value = 0 then .ok .start
  else if value = 1 then .ok .standby
  else .err (.unknownStandbyMode value)

/-- `UserCmd` (user_ctrl_cmd.rs). -/
inductive UserCmd where
  | resetType (value : Nat)
  | standbyType (value : StandbyType)
  | versionGet (value : Nat)
  | latencyType (value : Nat)
  | configReset (value : Nat)
  | configGet (value : Nat)
  | configAutoStandby (value : Nat)
deriving Repr, DecidableEq

/-- `impl TryFrom<(u32, u32)> for UserCmd`. -/
def UserCmd.tryFrom (typ value : Nat) : PResult UserCmd :=
  if typ = 1 then .ok (.resetType value)
  else if typ = 2 then PResult.bind (StandbyType.tryFrom value) fun s => .ok (.standbyType s)
  else if typ = 3 then .ok (.versionGet value)
  else if typ = 4 then .ok (.latencyType value)
  else if typ = 5 then .ok (.configReset value)
  else if typ = 6 then .ok (.configGet value)
  else if typ = 7 then .ok (.configAutoStandby value)
  else .err (.unknownCommandType typ)

/-- `Command` (command.rs). -/
inductive Command where
  | resetType (value : Nat)
  | paramSave (value : Nat)
  | paramGet (value : Nat)
  | versionGet (value : Nat)
  | standbyType (value : Nat)
  | latencyType (value : Nat)
  | configReset (value : Nat)
deriving Repr, DecidableEq

/-- `impl TryFrom<(u32, u32)> for Command`. -/
def Command.tryFrom (typ value : Nat) : PResult Command :=
  if typ = 1 then .ok (.resetType value)
  else if typ = 2 then .ok (.paramSave value)
  else if typ = 3 then .ok (.paramGet value)
  else if typ = 4 then .ok (.versionGet value)
  else if typ = 5 then .ok (.standbyType value)
  else if typ = 6 then .ok (.latencyType value)
  else if typ = 7 then .ok (.configReset value)
  else .err (.unknownCommandType typ)

/-- `AckStatus` (ack.rs): closed enumeration of acknowledgement statuses. -/
inductive AckStatus where
  | success
  | crcError
  | headerError
  | blockError
  | waitError
deriving Repr, DecidableEq

/-- `impl TryFrom<u32> for AckStatus`: {1, 2, 3, 4, 5}. -/
def AckStatus.tryFrom (value : Nat) : PResult AckStatus :=
  if value = 1 then .ok .success
  else if value = 2 then .ok .crcError
  else if value = 3 then .ok .headerError
  else if value = 4 then .ok .blockError
  else if value = 5 then .ok .waitError
  else .err (.unknownAckStatus value)

/-- `Ack` (ack.rs): tagged union keyed by the echoed packet type. -/
inductive Ack where
  | userCmd (cmd : UserCmd) (status : AckStatus)
  | command (cmd : Command) (status : AckStatus)
  | workMode (cmd_type cmd_value : Nat) (status : AckStatus)
deriving Repr, DecidableEq

/-- `impl TryFrom<LidarAckData> for Ack`: the status is validated first, then
the echoed packet type is dispatched against 100 / 2000 / 2002. -/
def Ack.tryFrom (value : LidarAckData) : PResult Ack :=
  PResult.bind (AckStatus.tryFrom value.status) fun status =>
    if value.packet_type = 100 then
      PResult.bind (UserCmd.tryFrom value.cmd_type value.cmd_value) fun cmd =>
        .ok (.userCmd cmd status)
    else if value.packet_type = 2000 then
      PResult.bind (Command.tryFrom value.cmd_type value.cmd_value) fun cmd =>
        .ok (.command cmd status)
    else if value.packet_type = 2002 then
      .ok (.workMode value.cmd_type value.cmd_value status)
    else .err (.ackUnknownPacketType value.packet_type)

/-- `WorkMode` (work_mode.rs): five independent boolean flags. -/
structure WorkMode where
  wide_angle : Bool
  measure_2d : Bool
  disable_imu : Bool
  serial_mode : Bool
  wait_start : Bool
deriving Repr, DecidableEq

/-- `impl TryFrom<LidarWorkModeConfig> for WorkMode`: reserved bits 5–31 must
be clear; bits 0–4 become the five flags. -/
def WorkMode.tryFrom (value : LidarWorkModeConfig) : PResult WorkMode :=
  if value.mode &&& 0xFFFFFFE0 ≠ 0 then .err (.unknownModeFlags value.mode)
  else
    .ok { wide_angle := value.mode &&& 0b1 ≠ 0
          measure_2d := value.mode &&& 0b10 ≠ 0
          disable_imu := value.mode &&& 0b100 ≠ 0
          serial_mode := value.mode &&& 0b1000 ≠ 0
          wait_start := value.mode &&& 0b10000 ≠ 0 }

/-! ### UTF-8 validation (models `String::from_utf8` of the Rust standard
library, i.e. RFC 3629 well-formedness). A Rust `String` is modelled as its
UTF-8 byte sequence. -/

/-- A UTF-8 continuation byte: `0x80 ..= 0xBF`. -/
def utf8Cont (b : Nat) : Bool := 0x80 ≤ b ∧ b ≤ 0xBF

/-- RFC 3629 well-formedness of a byte sequence, as checked by Rust's
`String::from_utf8`. -/
def utf8Valid : Bytes → Bool
  | [] => true
  | b0 :: rest =>
    if b0 < 0x80 then utf8Valid rest
    else
      match rest with
      | [] => false
      | b1 :: rest1 =>
        if 0xC2 ≤ b0 ∧ b0 ≤ 0xDF then utf8Cont b1 && utf8Valid rest1
        else
          match rest1 with
          | [] => false
          | b2 :: rest2 =>
            if b0 = 0xE0 then (0xA0 ≤ b1 && b1 ≤ 0xBF) && utf8Cont b2 && utf8Valid rest2
            else if (0xE1 ≤ b0 ∧ b0 ≤ 0xEC) ∨ b0 = 0xEE ∨ b0 = 0xEF then
              utf8Cont b1 && utf8Cont b2 && utf8Valid rest2
            else if b0 = 0xED then (0x80 ≤ b1 && b1 ≤ 0x9F) && utf8Cont b2 && utf8Valid rest2
            else
              match rest2 with
              | [] => false
              | b3 :: rest3 =>
                if b0 = 0xF0 then
                  (0x90 ≤ b1 && b1 ≤ 0xBF) && utf8Cont b2 && utf8Cont b3 && utf8Valid rest3
                else if 0xF1 ≤ b0 ∧ b0 ≤ 0xF3 then
                  utf8Cont b1 && utf8Cont b2 && utf8Cont b3 && utf8Valid rest3
                else if b0 = 0xF4 then
                  (0x80 ≤ b1 && b1 ≤ 0x8F) && utf8Cont b2 && utf8Cont b3 && utf8Valid rest3
                else false

/-- Right-trim of all trailing NUL bytes (the `while let [rest @ .., last]`
loop in version.rs). -/
def trimNulRight (bs : Bytes) : Bytes :=
  (bs.reverse.dropWhile (fun b => b = 0)).reverse

/-- `Version` (version.rs): the decoded `name` string is modelled as its
UTF-8 byte sequence; `date` keeps the raw date bytes (the Rust code formats
them as `20YY-MM-DD` for display, a pure reformatting). -/
structure Version where
  hardware : Bytes
  software : Bytes
  name : Bytes
  date : Bytes
deriving Repr, DecidableEq

/-- `impl TryFrom<LidarVersionData> for Version`: trailing NULs are trimmed
from the name, which must then be valid UTF-8. -/
def Version.tryFrom (value : LidarVersionData) : PResult Version :=
  if utf8Valid (trimNulRight value.name) then
    .ok { hardware := value.hw_version, software := value.sw_version,
          name := trimNulRight value.name, date := value.date }
  else .err .invalidUtf8

/-! ## Packet dispatcher (frame.rs) -/

/-- `PacketType`: the closed set of known packet type codes. -/
inductive PacketType where
  | lidarUserCmd
  | lidarAckData
  | lidarPointData
  | lidar2DPointData
  | lidarImuData
  | lidarVersion
  | lidarTimeStamp
  | lidarWorkModeConfig
  | lidarIpAddressConfig
  | lidarMacAddressConfig
  | lidarCommand
  | lidarParamData
  | lidarWorkMode
deriving Repr, DecidableEq

namespace PacketType

/-- The wire code of each packet type (the `LIDAR_*` constants). -/
def code : PacketType → Nat
  | .lidarUserCmd => 100
  | .lidarAckData => 101
  | .lidarPointData => 102
  | .lidar2DPointData => 103
  | .lidarImuData => 104
  | .lidarVersion => 105
  | .lidarTimeStamp => 106
  | .lidarWorkModeConfig => 107
  | .lidarIpAddressConfig => 108
  | .lidarMacAddressConfig => 109
  | .lidarCommand => 2000
  | .lidarParamData => 2001
  | .lidarWorkMode => 2002

/-- `impl TryFrom<u32> for PacketType`. -/
def tryFrom (value : Nat) : PResult PacketType :=
  if value = 100 then .ok .lidarUserCmd
  else if value = 101 then .ok .lidarAckData
  else if value = 102 then .ok .lidarPointData
  else if value = 103 then .ok .lidar2DPointData
  else if value = 104 then .ok .lidarImuData
  else if value = 105 then .ok .lidarVersion
  else if value = 106 then .ok .lidarTimeStamp
  else if value = 107 then .ok .lidarWorkModeConfig
  else if value = 108 then .ok .lidarIpAddressConfig
  else if value = 109 then .ok .lidarMacAddressConfig
  else if value = 2000 then .ok .lidarCommand
  else if value = 2001 then .ok .lidarParamData
  else if value = 2002 then .ok .lidarWorkMode
  else .err (.unknownPacketType value)

end PacketType

/-- `Packet`: the closed union of decoded packet kinds. -/
inductive Packet where
  | lidarUserCmd (cmd : UserCmd)
  | lidarAckData (ack : Ack)
  | lidarPointData (data : LidarPointData)
  | lidar2DPointData (raw : Bytes)
  | lidarImuData (data : LidarImuData)
  | lidarVersion (version : Version)
  | lidarTimeStamp (raw : Bytes)
  | lidarWorkModeConfig (config : WorkMode)
  | lidarIpAddressConfig (raw : Bytes)
  | lidarMacAddressConfig (raw : Bytes)
  | lidarCommand (command : Command)
  | lidarParamData (raw : Bytes)
  | lidarWorkMode (mode : WorkMode)
deriving Repr, DecidableEq

namespace Packet

/-- The header type code each `Packet` variant corresponds to. -/
def typeCode : Packet → Nat
  | .lidarUserCmd _ => 100
  | .lidarAckData _ => 101
  | .lidarPointData _ => 102
  | .lidar2DPointData _ => 103
  | .lidarImuData _ => 104
  | .lidarVersion _ => 105
  | .lidarTimeStamp _ => 106
  | .lidarWorkModeConfig _ => 107
  | .lidarIpAddressConfig _ => 108
  | .lidarMacAddressConfig _ => 109
  | .lidarCommand _ => 2000
  | .lidarParamData _ => 2001
  | .lidarWorkMode _ => 2002

/-- The packet-type dispatch of `Packet::parse`: maps the header's type code
and the payload slice to the decoded packet (the `match packet_type` block). -/
def decodePayload (packet_type : Nat) (payload_bytes : Bytes) : PResult Packet :=
  PResult.bind (PacketType.tryFrom packet_type) fun pt =>
    match pt with
    | .lidarUserCmd =>
      PResult.bind (LidarUserCtrlCmd.parse payload_bytes) fun (cmd, _) =>
        PResult.bind (UserCmd.tryFrom cmd.cmd_type cmd.cmd_value) fun c =>
          .ok (.lidarUserCmd c)
    | .lidarAckData =>
      PResult.bind (LidarAckData.parse payload_bytes) fun (data, _) =>
        PResult.bind (Ack.tryFrom data) fun a =>
          .ok (.lidarAckData a)
    | .lidarPointData =>
      PResult.bind (LidarPointData.parse payload_bytes) fun (data, _) =>
        .ok (.lidarPointData data)
    | .lidar2DPointData => .ok (.lidar2DPointData payload_bytes)
    | .lidarImuData =>
      PResult.bind (LidarImuData.parse payload_bytes) fun (data, _) =>
        .ok (.lidarImuData data)
    | .lidarVersion =>
      PResult.bind (LidarVersionData.parse payload_bytes) fun (data, _) =>
        PResult.bind (Version.tryFrom data) fun v =>
          .ok (.lidarVersion v)
    | .lidarTimeStamp => .ok (.lidarTimeStamp payload_bytes)
    | .lidarWorkModeConfig =>
      PResult.bind (LidarWorkModeConfig.parse payload_bytes) fun (config, _) =>
        PResult.bind (WorkMode.tryFrom config) fun m =>
          .ok (.lidarWorkModeConfig m)
    | .lidarIpAddressConfig => .ok (.lidarIpAddressConfig payload_bytes)
    | .lidarMacAddressConfig => .ok (.lidarMacAddressConfig payload_bytes)
    | .lidarCommand =>
      PResult.bind (LidarCommand.parse payload_bytes) fun (command, _) =>
        PResult.bind (Command.tryFrom command.cmd_type command.cmd_value) fun c =>
          .ok (.lidarCommand c)
    | .lidarParamData => .ok (.lidarParamData payload_bytes)
    | .lidarWorkMode =>
      PResult.bind (LidarWorkModeConfig.parse payload_bytes) fun (config, _) =>
        PResult.bind (WorkMode.tryFrom config) fun m =>
          .ok (.lidarWorkMode m)

/-- `Packet::parse`: deserializes one frame from the input, returning the
decoded packet and the unconsumed remainder. -/
def parse (input : Bytes) : PResult (Packet × Bytes) :=
  PResult.bind (FrameHeader.parse input) fun (header, remainder) =>
    if header.packet_size < FrameHeader.LEN + FrameTail.LEN then
      .err .tooSmallForPayload
    else
      let payload_len := header.packet_size - (FrameHeader.LEN + FrameTail.LEN)
      match splitAtChecked payload_len remainder with
      | none => .err .payloadTruncated
      | some (payload_bytes, remainder) =>
        let payload_crc := crc32 payload_bytes
        PResult.bind (FrameTail.parse remainder) fun (tail, remainder) =>
          if payload_crc ≠ tail.crc32 then .err .crcMismatch
          else
            PResult.bind (decodePayload header.packet_type payload_bytes) fun packet =>
              .ok (packet, remainder)

end Packet

/-- Little-endian 4-byte encoding of a `u32` value, used to describe
well-formed frame layouts in theorem statements. -/
def le4 (n : Nat) : Bytes := [n % 256, n / 256 % 256, n / 65536 % 256, n / 16777216 % 256]

/-- The byte layout of one complete frame followed by trailing bytes:
4 magic bytes, `packet_type`, `packet_size`, the payload, then the 12-byte
tail (`crc32`, `msg_type_check`, 2 reserved bytes, 2 tail-magic bytes). -/
def frameBytes (pt ps : Nat) (payload : Bytes) (c m r0 r1 t0 t1 : Nat) (rest : Bytes) : Bytes :=
  FrameHeader.magic ++ le4 pt ++ le4 ps ++ payload ++ le4 c ++ le4 m ++ [r0, r1, t0, t1] ++ rest

/-- Left inverse of `crcStep` on 32-bit values, witnessing its injectivity. -/
def crcInv (o : Nat) : Nat :=
  if o.testBit 31 then 2 * (o ^^^ crcPoly) + 1 else 2 * o

/-- The closed list of known packet type codes. -/
def knownPacketCodes : List Nat :=
  [100, 101, 102, 103, 104, 105, 106, 107, 108, 109, 2000, 2001, 2002]

/-- A well-formed byte buffer: every element is an actual byte value. -/
def BytesOk (bs : Bytes) : Prop := ∀ b ∈ bs, b < 256

instance (bs : Bytes) : Decidable (BytesOk bs) := by
  unfold BytesOk; infer_instance

/-! # Theorems -/

/-! ## Primitive reader and list lemmas -/

@[simp] theorem readU32_cons (b0 b1 b2 b3 : Nat) (rest : Bytes) :
    readU32 (b0 :: b1 :: b2 :: b3 :: rest) = .ok (deLE4 b0 b1 b2 b3, rest) := rfl

@[simp] theorem readU16_cons (b0 b1 : Nat) (rest : Bytes) :
    readU16 (b0 :: b1 :: rest) = .ok (b0 + b1 * 256, rest) := rfl

@[simp] theorem readU8_cons (b : Nat) (rest : Bytes) :
    readU8 (b :: rest) = .ok (b, rest) := rfl

theorem deLE4_le4 {n : Nat} (h : n < 2 ^ 32) :
    deLE4 (n % 256) (n / 256 % 256) (n / 65536 % 256) (n / 16777216 % 256) = n := by
  unfold deLE4
  omega

theorem readU32_le4 {n : Nat} (rest : Bytes) (h : n < 2 ^ 32) :
    readU32 (le4 n ++ rest) = .ok (n, rest) := by
  show readU32 (n % 256 :: n / 256 % 256 :: n / 65536 % 256 :: n / 16777216 % 256 :: rest) = _
  rw [readU32_cons, deLE4_le4 h]

theorem splitAtChecked_of_le {n : Nat} {bs : Bytes} (h : n ≤ bs.length) :
    splitAtChecked n bs = some (bs.take n, bs.drop n) := by
  simp [splitAtChecked, h]

theorem splitAtChecked_of_lt {n : Nat} {bs : Bytes} (h : bs.length < n) :
    splitAtChecked n bs = none := by
  rw [splitAtChecked, if_neg (by omega)]

theorem splitAtChecked_append {n : Nat} {xs ys : Bytes} (h : xs.length = n) :
    splitAtChecked n (xs ++ ys) = some (xs, ys) := by
  rw [splitAtChecked, if_pos (by simp [← h]), List.take_left' h, List.drop_left' h]

theorem stripLead_append (pre bs : Bytes) : stripLead pre (pre ++ bs) = some bs := by
  induction pre with
  | nil => rfl
  | cons p ps ih => simp [stripLead, ih]

theorem stripLead_eq_drop {pre bs r : Bytes} (h : stripLead pre bs = some r) :
    r = bs.drop pre.length := by
  induction pre generalizing bs with
  | nil =>
    rw [stripLead] at h
    cases h
    rfl
  | cons p ps ih =>
    cases bs with
    | nil => exact absurd h (by rw [stripLead]; exact Option.noConfusion)
    | cons b bs' =>
      rw [stripLead] at h
      by_cases hb : b = p
      · rw [if_pos hb] at h
        simpa using ih h
      · rw [if_neg hb] at h
        exact absurd h Option.noConfusion

theorem readU32_progress (bs : Bytes) (h : 4 ≤ bs.length) :
    ∃ v, readU32 bs = .ok (v, bs.drop 4) := by
  rcases bs with _ | ⟨b0, _ | ⟨b1, _ | ⟨b2, _ | ⟨b3, rest⟩⟩⟩⟩
  · simp at h
  · simp at h
  · simp at h
  · simp at h
  · exact ⟨deLE4 b0 b1 b2 b3, rfl⟩

theorem readU16_progress (bs : Bytes) (h : 2 ≤ bs.length) :
    ∃ v, readU16 bs = .ok (v, bs.drop 2) := by
  rcases bs with _ | ⟨b0, _ | ⟨b1, rest⟩⟩
  · simp at h
  · simp at h
  · exact ⟨b0 + b1 * 256, rfl⟩

theorem readU8_progress (bs : Bytes) (h : 1 ≤ bs.length) :
    ∃ v, readU8 bs = .ok (v, bs.drop 1) := by
  rcases bs with _ | ⟨b0, rest⟩
  · simp at h
  · exact ⟨b0, rfl⟩

theorem readSeq_progress {rd : Bytes → PResult (Nat × Bytes)} {k : Nat}
    (hrd : ∀ bs : Bytes, k ≤ bs.length → ∃ v, rd bs = .ok (v, bs.drop k)) :
    ∀ (n : Nat) (bs : Bytes), k * n ≤ bs.length →
      ∃ vs, readSeq rd n bs = .ok (vs, bs.drop (k * n)) := by
  intro n
  induction n with
  | zero =>
    intro bs _
    exact ⟨[], by simp [readSeq]⟩
  | succ m ih =>
    intro bs h
    rw [Nat.mul_succ] at h
    have hk : k ≤ bs.length := by nlinarith [Nat.zero_le (k * m)]
    obtain ⟨v, hv⟩ := hrd bs hk
    have h2 : k * m ≤ (bs.drop k).length := by
      rw [List.length_drop]
      omega
    obtain ⟨vs, hvs⟩ := ih (bs.drop k) h2
    refine ⟨v :: vs, ?_⟩
    have harith : k + k * m = k * (m + 1) := by ring
    simp only [readSeq, hv, PResult.ok_bind, hvs, List.drop_drop, harith]

theorem readExact_of_le {n : Nat} {bs : Bytes} (h : n ≤ bs.length) :
    readExact n bs = .ok (bs.take n, bs.drop n) := by
  simp [readExact, h]

/-! ## Record-parser characterizations: on short input each parser reports the
needed and available lengths; with enough bytes it consumes exactly its
declared record length and cannot panic. -/

theorem LidarAckData_parse_short {bs : Bytes} (h : bs.length < LidarAckData.LEN) :
    LidarAckData.parse bs = .err (.insufficientData LidarAckData.LEN bs.length) := by
  rw [LidarAckData.parse, splitAtChecked_of_lt h]

theorem LidarAckData_parse_progress (bs : Bytes) (h : LidarAckData.LEN ≤ bs.length) :
    ∃ v, LidarAckData.parse bs = .ok (v, bs.drop LidarAckData.LEN) := by
  have h16 : (16 : Nat) ≤ bs.length := h
  have hlen : (bs.take LidarAckData.LEN).length = 16 := by
    simp [LidarAckData.LEN]
    omega
  obtain ⟨v1, h1⟩ := readU32_progress (bs.take LidarAckData.LEN) (by omega)
  obtain ⟨v2, h2⟩ := readU32_progress ((bs.take LidarAckData.LEN).drop 4)
    (by simp [hlen])
  obtain ⟨v3, h3⟩ := readU32_progress (((bs.take LidarAckData.LEN).drop 4).drop 4)
    (by simp [hlen])
  obtain ⟨v4, h4⟩ := readU32_progress
    ((((bs.take LidarAckData.LEN).drop 4).drop 4).drop 4) (by simp [hlen])
  have hnil : ((((bs.take LidarAckData.LEN).drop 4).drop 4).drop 4).drop 4 = [] := by
    apply List.eq_nil_of_length_eq_zero
    simp [hlen]
  refine ⟨⟨v1, v2, v3, v4⟩, ?_⟩
  rw [LidarAckData.parse, splitAtChecked_of_le h]
  simp only [h1, PResult.ok_bind, h2, h3, h4, hnil, List.isEmpty_nil, if_true]

theorem TimeStamp_parse_short {bs : Bytes} (h : bs.length < TimeStamp.LEN) :
    TimeStamp.parse bs = .err (.insufficientData TimeStamp.LEN bs.length) := by
  rw [TimeStamp.parse, splitAtChecked_of_lt h]

theorem TimeStamp_parse_progress (bs : Bytes) (h : TimeStamp.LEN ≤ bs.length) :
    ∃ v, TimeStamp.parse bs = .ok (v, bs.drop TimeStamp.LEN) := by
  have hnum : (8 : Nat) ≤ bs.length := h
  have hlen : (bs.take TimeStamp.LEN).length = 8 := by
    simp [TimeStamp.LEN]
    omega
  obtain ⟨v1, h1⟩ := readU32_progress (bs.take TimeStamp.LEN) (by omega)
  obtain ⟨v2, h2⟩ := readU32_progress ((bs.take TimeStamp.LEN).drop 4) (by simp [hlen])
  refine ⟨⟨v1, v2⟩, ?_⟩
  rw [TimeStamp.parse, splitAtChecked_of_le h]
  simp only [h1, PResult.ok_bind, h2]

theorem DataInfo_parse_short {bs : Bytes} (h : bs.length < DataInfo.LEN) :
    DataInfo.parse bs = .err (.insufficientData DataInfo.LEN bs.length) := by
  rw [DataInfo.parse, splitAtChecked_of_lt h]

theorem DataInfo_parse_progress (bs : Bytes) (h : DataInfo.LEN ≤ bs.length) :
    ∃ v, DataInfo.parse bs = .ok (v, bs.drop DataInfo.LEN) := by
  have hnum : (16 : Nat) ≤ bs.length := h
  have hlen : (bs.take DataInfo.LEN).length = 16 := by
    simp [DataInfo.LEN]
    omega
  obtain ⟨v1, h1⟩ := readU32_progress (bs.take DataInfo.LEN) (by omega)
  obtain ⟨v2, h2⟩ := readU32_progress ((bs.take DataInfo.LEN).drop 4) (by simp [hlen])
  obtain ⟨ts, hts⟩ := TimeStamp_parse_progress ((bs.take DataInfo.LEN).drop 8)
    (by simp [hlen, TimeStamp.LEN])
  have hnil : (bs.take DataInfo.LEN).drop 16 = [] := by
    apply List.eq_nil_of_length_eq_zero
    simp [hlen]
  refine ⟨⟨v1, v2, ts⟩, ?_⟩
  rw [DataInfo.parse, splitAtChecked_of_le h]
  simp only [h1, PResult.ok_bind, List.drop_drop, h2, hts, TimeStamp.LEN, hnil,
    List.isEmpty_nil, if_true]

theorem LidarCommand_parse_short {bs : Bytes} (h : bs.length < LidarCommand.LEN) :
    LidarCommand.parse bs = .err (.insufficientData LidarCommand.LEN bs.length) := by
  rw [LidarCommand.parse, splitAtChecked_of_lt h]

theorem LidarCommand_parse_progress (bs : Bytes) (h : LidarCommand.LEN ≤ bs.length) :
    ∃ v, LidarCommand.parse bs = .ok (v, bs.drop LidarCommand.LEN) := by
  have hnum : (8 : Nat) ≤ bs.length := h
  have hlen : (bs.take LidarCommand.LEN).length = 8 := by
    simp [LidarCommand.LEN]
    omega
  obtain ⟨v1, h1⟩ := readU32_progress (bs.take LidarCommand.LEN) (by omega)
  obtain ⟨v2, h2⟩ := readU32_progress ((bs.take LidarCommand.LEN).drop 4) (by simp [hlen])
  have hnil : (bs.take LidarCommand.LEN).drop 8 = [] := by
    apply List.eq_nil_of_length_eq_zero
    simp [hlen]
  refine ⟨⟨v1, v2⟩, ?_⟩
  rw [LidarCommand.parse, splitAtChecked_of_le h]
  simp only [h1, PResult.ok_bind, List.drop_drop, h2, hnil, List.isEmpty_nil, if_true]

theorem LidarUserCtrlCmd_parse_short {bs : Bytes} (h : bs.length < LidarUserCtrlCmd.LEN) :
    LidarUserCtrlCmd.parse bs = .err (.insufficientData LidarUserCtrlCmd.LEN bs.length) := by
  rw [LidarUserCtrlCmd.parse, splitAtChecked_of_lt h]

theorem LidarUserCtrlCmd_parse_progress (bs : Bytes) (h : LidarUserCtrlCmd.LEN ≤ bs.length) :
    ∃ v, LidarUserCtrlCmd.parse bs = .ok (v, bs.drop LidarUserCtrlCmd.LEN) := by
  have hnum : (8 : Nat) ≤ bs.length := h
  have hlen : (bs.take LidarUserCtrlCmd.LEN).length = 8 := by
    simp [LidarUserCtrlCmd.LEN]
    omega
  obtain ⟨v1, h1⟩ := readU32_progress (bs.take LidarUserCtrlCmd.LEN) (by omega)
  obtain ⟨v2, h2⟩ := readU32_progress ((bs.take LidarUserCtrlCmd.LEN).drop 4)
    (by simp [hlen])
  have hnil : (bs.take LidarUserCtrlCmd.LEN).drop 8 = [] := by
    apply List.eq_nil_of_length_eq_zero
    simp [hlen]
  refine ⟨⟨v1, v2⟩, ?_⟩
  rw [LidarUserCtrlCmd.parse, splitAtChecked_of_le h]
  simp only [h1, PResult.ok_bind, List.drop_drop, h2, hnil, List.isEmpty_nil, if_true]

theorem LidarWorkModeConfig_parse_short {bs : Bytes} (h : bs.length < LidarWorkModeConfig.LEN) :
    LidarWorkModeConfig.parse bs = .err (.insufficientData LidarWorkModeConfig.LEN bs.length) := by
  rw [LidarWorkModeConfig.parse, splitAtChecked_of_lt h]

theorem LidarWorkModeConfig_parse_progress (bs : Bytes) (h : LidarWorkModeConfig.LEN ≤ bs.length) :
    ∃ v, LidarWorkModeConfig.parse bs = .ok (v, bs.drop LidarWorkModeConfig.LEN) := by
  have hnum : (4 : Nat) ≤ bs.length := h
  have hlen : (bs.take LidarWorkModeConfig.LEN).length = 4 := by
    simp [LidarWorkModeConfig.LEN]
    omega
  obtain ⟨v1, h1⟩ := readU32_progress (bs.take LidarWorkModeConfig.LEN) (by omega)
  have hnil : (bs.take LidarWorkModeConfig.LEN).drop 4 = [] := by
    apply List.eq_nil_of_length_eq_zero
    simp [hlen]
  refine ⟨⟨v1⟩, ?_⟩
  rw [LidarWorkModeConfig.parse, splitAtChecked_of_le h]
  simp only [h1, PResult.ok_bind, hnil, List.isEmpty_nil, if_true]

theorem LidarVersionData_parse_short {bs : Bytes} (h : bs.length < LidarVersionData.LEN) :
    LidarVersionData.parse bs = .err (.insufficientData LidarVersionData.LEN bs.length) := by
  rw [LidarVersionData.parse, splitAtChecked_of_lt h]

theorem LidarVersionData_parse_progress (bs : Bytes) (h : LidarVersionData.LEN ≤ bs.length) :
    ∃ v, LidarVersionData.parse bs = .ok (v, bs.drop LidarVersionData.LEN) := by
  have hnum : (80 : Nat) ≤ bs.length := h
  have hlen : (bs.take LidarVersionData.LEN).length = 80 := by
    simp [LidarVersionData.LEN]
    omega
  have e1 : readExact 4 (bs.take LidarVersionData.LEN) =
      .ok ((bs.take LidarVersionData.LEN).take 4, (bs.take LidarVersionData.LEN).drop 4) :=
    readExact_of_le (by omega)
  have e2 : readExact 4 ((bs.take LidarVersionData.LEN).drop 4) =
      .ok (((bs.take LidarVersionData.LEN).drop 4).take 4,
           ((bs.take LidarVersionData.LEN).drop 4).drop 4) :=
    readExact_of_le (by simp [hlen])
  have e3 : readExact 24 ((bs.take LidarVersionData.LEN).drop 8) =
      .ok (((bs.take LidarVersionData.LEN).drop 8).take 24,
           ((bs.take LidarVersionData.LEN).drop 8).drop 24) :=
    readExact_of_le (by simp [hlen])
  have e4 : readExact 8 ((bs.take LidarVersionData.LEN).drop 32) =
      .ok (((bs.take LidarVersionData.LEN).drop 32).take 8,
           ((bs.take LidarVersionData.LEN).drop 32).drop 8) :=
    readExact_of_le (by simp [hlen])
  have e5 : readExact 40 ((bs.take LidarVersionData.LEN).drop 40) =
      .ok (((bs.take LidarVersionData.LEN).drop 40).take 40,
           ((bs.take LidarVersionData.LEN).drop 40).drop 40) :=
    readExact_of_le (by simp [hlen])
  have hnil : (bs.take LidarVersionData.LEN).drop 80 = [] := by
    apply List.eq_nil_of_length_eq_zero
    simp [hlen]
  refine ⟨⟨(bs.take LidarVersionData.LEN).take 4,
           ((bs.take LidarVersionData.LEN).drop 4).take 4,
           ((bs.take LidarVersionData.LEN).drop 8).take 24,
           ((bs.take LidarVersionData.LEN).drop 32).take 8,
           ((bs.take LidarVersionData.LEN).drop 40).take 40⟩, ?_⟩
  rw [LidarVersionData.parse, splitAtChecked_of_le h]
  simp only [e1, PResult.ok_bind, List.drop_drop, e2, e3, e4, e5, hnil,
    List.isEmpty_nil, if_true]

theorem LidarInsideState_parse_short {bs : Bytes} (h : bs.length < LidarInsideState.LEN) :
    LidarInsideState.parse bs = .err (.insufficientData LidarInsideState.LEN bs.length) := by
  rw [LidarInsideState.parse, splitAtChecked_of_lt h]

theorem LidarInsideState_parse_progress (bs : Bytes) (h : LidarInsideState.LEN ≤ bs.length) :
    ∃ v, LidarInsideState.parse bs = .ok (v, bs.drop LidarInsideState.LEN) := by
  have hnum : (36 : Nat) ≤ bs.length := h
  have hlen : (bs.take LidarInsideState.LEN).length = 36 := by
    simp [LidarInsideState.LEN]
    omega
  obtain ⟨v1, h1⟩ := readU32_progress (bs.take LidarInsideState.LEN) (by omega)
  obtain ⟨v2, h2⟩ := readU32_progress ((bs.take LidarInsideState.LEN).drop 4)
    (by simp [hlen])
  obtain ⟨v3, h3⟩ := readU32_progress ((bs.take LidarInsideState.LEN).drop 8)
    (by simp [hlen])
  obtain ⟨v4, h4⟩ := readU32_progress ((bs.take LidarInsideState.LEN).drop 12)
    (by simp [hlen])
  obtain ⟨v5, h5⟩ := readU32_progress ((bs.take LidarInsideState.LEN).drop 16)
    (by simp [hlen])
  obtain ⟨v6, h6⟩ := readU32_progress ((bs.take LidarInsideState.LEN).drop 20)
    (by simp [hlen])
  obtain ⟨v7, h7⟩ := readU32_progress ((bs.take LidarInsideState.LEN).drop 24)
    (by simp [hlen])
  obtain ⟨v8, h8⟩ := readU32_progress ((bs.take LidarInsideState.LEN).drop 28)
    (by simp [hlen])
  obtain ⟨v9, h9⟩ := readU32_progress ((bs.take LidarInsideState.LEN).drop 32)
    (by simp [hlen])
  have hnil : (bs.take LidarInsideState.LEN).drop 36 = [] := by
    apply List.eq_nil_of_length_eq_zero
    simp [hlen]
  refine ⟨⟨v1, v2, v3, v4, v5, v6, v7, v8, v9⟩, ?_⟩
  rw [LidarInsideState.parse, splitAtChecked_of_le h]
  simp only [h1, PResult.ok_bind, List.drop_drop, h2, h3, h4, h5, h6, h7, h8, h9, hnil,
    List.isEmpty_nil, if_true]

theorem LidarCalibParam_parse_short {bs : Bytes} (h : bs.length < LidarCalibParam.LEN) :
    LidarCalibParam.parse bs = .err (.insufficientData LidarCalibParam.LEN bs.length) := by
  rw [LidarCalibParam.parse, splitAtChecked_of_lt h]

theorem LidarCalibParam_parse_progress (bs : Bytes) (h : LidarCalibParam.LEN ≤ bs.length) :
    ∃ v, LidarCalibParam.parse bs = .ok (v, bs.drop LidarCalibParam.LEN) := by
  have hnum : (32 : Nat) ≤ bs.length := h
  have hlen : (bs.take LidarCalibParam.LEN).length = 32 := by
    simp [LidarCalibParam.LEN]
    omega
  obtain ⟨v1, h1⟩ := readU32_progress (bs.take LidarCalibParam.LEN) (by omega)
  obtain ⟨v2, h2⟩ := readU32_progress ((bs.take LidarCalibParam.LEN).drop 4)
    (by simp [hlen])
  obtain ⟨v3, h3⟩ := readU32_progress ((bs.take LidarCalibParam.LEN).drop 8)
    (by simp [hlen])
  obtain ⟨v4, h4⟩ := readU32_progress ((bs.take LidarCalibParam.LEN).drop 12)
    (by simp [hlen])
  obtain ⟨v5, h5⟩ := readU32_progress ((bs.take LidarCalibParam.LEN).drop 16)
    (by simp [hlen])
  obtain ⟨v6, h6⟩ := readU32_progress ((bs.take LidarCalibParam.LEN).drop 20)
    (by simp [hlen])
  obtain ⟨v7, h7⟩ := readU32_progress ((bs.take LidarCalibParam.LEN).drop 24)
    (by simp [hlen])
  obtain ⟨v8, h8⟩ := readU32_progress ((bs.take LidarCalibParam.LEN).drop 28)
    (by simp [hlen])
  have hnil : (bs.take LidarCalibParam.LEN).drop 32 = [] := by
    apply List.eq_nil_of_length_eq_zero
    simp [hlen]
  refine ⟨⟨v1, v2, v3, v4, v5, v6, v7, v8⟩, ?_⟩
  rw [LidarCalibParam.parse, splitAtChecked_of_le h]
  simp only [h1, PResult.ok_bind, List.drop_drop, h2, h3, h4, h5, h6, h7, h8, hnil,
    List.isEmpty_nil, if_true]

theorem LidarImuData_parse_short {bs : Bytes} (h : bs.length < LidarImuData.LEN) :
    LidarImuData.parse bs = .err (.insufficientData LidarImuData.LEN bs.length) := by
  rw [LidarImuData.parse, splitAtChecked_of_lt h]

/-- Decoding a 56-byte IMU record reads only those 56 bytes: on `r ++ s` the
decoded value is the one obtained from `r` alone and `s` is returned
untouched. -/
theorem LidarImuData_parse_split {r : Bytes} (s : Bytes) (hr : r.length = 56) :
    ∃ v, LidarImuData.parse (r ++ s) = .ok (v, s) ∧ LidarImuData.parse r = .ok (v, []) := by
  obtain ⟨info, hinfo⟩ := DataInfo_parse_progress (r) (by
    show (16 : Nat) ≤ r.length
    omega)
  obtain ⟨q, hq⟩ := readSeq_progress (fun b hb => readU32_progress b hb) 4 (r.drop 16)
    (by simp [hr])
  obtain ⟨av, hav⟩ := readSeq_progress (fun b hb => readU32_progress b hb) 3 (r.drop 32)
    (by simp [hr])
  obtain ⟨la, hla⟩ := readSeq_progress (fun b hb => readU32_progress b hb) 3 (r.drop 44)
    (by simp [hr])
  have hnil : r.drop 56 = [] := by
    apply List.eq_nil_of_length_eq_zero
    simp [hr]
  have hsplit1 : splitAtChecked LidarImuData.LEN (r ++ s) = some (r, s) :=
    splitAtChecked_append hr
  have hsplit2 : splitAtChecked LidarImuData.LEN r = some (r, []) := by
    rw [splitAtChecked_of_le (show LidarImuData.LEN ≤ r.length by simp [LidarImuData.LEN, hr])]
    rw [List.take_of_length_le (by simp [LidarImuData.LEN, hr]),
      List.drop_eq_nil_of_le (by simp [LidarImuData.LEN, hr])]
  refine ⟨⟨info, q, av, la⟩, ?_, ?_⟩
  · rw [LidarImuData.parse, hsplit1]
    simp only [hinfo, DataInfo.LEN, PResult.ok_bind, List.drop_drop, hq, hav, hla, hnil,
      List.isEmpty_nil, if_true]
  · rw [LidarImuData.parse, hsplit2]
    simp only [hinfo, DataInfo.LEN, PResult.ok_bind, List.drop_drop, hq, hav, hla, hnil,
      List.isEmpty_nil, if_true]

theorem LidarImuData_parse_progress (bs : Bytes) (h : LidarImuData.LEN ≤ bs.length) :
    ∃ v, LidarImuData.parse bs = .ok (v, bs.drop LidarImuData.LEN) := by
  have hnum : (56 : Nat) ≤ bs.length := h
  have hr : (bs.take 56).length = 56 := by
    simp
    omega
  obtain ⟨v, hv, _⟩ := LidarImuData_parse_split (bs.drop 56) hr
  rw [List.take_append_drop] at hv
  exact ⟨v, hv⟩

theorem LidarPointData_parse_short {bs : Bytes} (h : bs.length < LidarPointData.LEN) :
    LidarPointData.parse bs = .err (.insufficientData LidarPointData.LEN bs.length) := by
  rw [LidarPointData.parse, splitAtChecked_of_lt h]

theorem LidarPointData_parse_progress (bs : Bytes) (h : LidarPointData.LEN ≤ bs.length) :
    ∃ v, LidarPointData.parse bs = .ok (v, bs.drop LidarPointData.LEN) := by
  have hnum : (1020 : Nat) ≤ bs.length := h
  have hlen : (bs.take LidarPointData.LEN).length = 1020 := by
    simp [LidarPointData.LEN]
    omega
  obtain ⟨info, hinfo⟩ := DataInfo_parse_progress (bs.take LidarPointData.LEN)
    (by show (16 : Nat) ≤ _; omega)
  obtain ⟨st, hst⟩ := LidarInsideState_parse_progress
    ((bs.take LidarPointData.LEN).drop 16) (by show (36 : Nat) ≤ _; simp [hlen])
  obtain ⟨pa, hpa⟩ := LidarCalibParam_parse_progress
    ((bs.take LidarPointData.LEN).drop 52) (by show (32 : Nat) ≤ _; simp [hlen])
  obtain ⟨g1, h1⟩ := readU32_progress ((bs.take LidarPointData.LEN).drop 84)
    (by simp [hlen])
  obtain ⟨g2, h2⟩ := readU32_progress ((bs.take LidarPointData.LEN).drop 88)
    (by simp [hlen])
  obtain ⟨g3, h3⟩ := readU32_progress ((bs.take LidarPointData.LEN).drop 92)
    (by simp [hlen])
  obtain ⟨g4, h4⟩ := readU32_progress ((bs.take LidarPointData.LEN).drop 96)
    (by simp [hlen])
  obtain ⟨g5, h5⟩ := readU32_progress ((bs.take LidarPointData.LEN).drop 100)
    (by simp [hlen])
  obtain ⟨g6, h6⟩ := readU32_progress ((bs.take LidarPointData.LEN).drop 104)
    (by simp [hlen])
  obtain ⟨g7, h7⟩ := readU32_progress ((bs.take LidarPointData.LEN).drop 108)
    (by simp [hlen])
  obtain ⟨g8, h8⟩ := readU32_progress ((bs.take LidarPointData.LEN).drop 112)
    (by simp [hlen])
  obtain ⟨g9, h9⟩ := readU32_progress ((bs.take LidarPointData.LEN).drop 116)
    (by simp [hlen])
  obtain ⟨rg, hrg⟩ := readSeq_progress (fun b hb => readU16_progress b hb) 300
    ((bs.take LidarPointData.LEN).drop 120) (by simp [hlen])
  obtain ⟨it, hit⟩ := readSeq_progress (fun b hb => readU8_progress b hb) 300
    ((bs.take LidarPointData.LEN).drop 720) (by simp [hlen])
  have hnil : (bs.take LidarPointData.LEN).drop 1020 = [] := by
    apply List.eq_nil_of_length_eq_zero
    simp [hlen]
  refine ⟨⟨info, st, pa, g1, g2, g3, g4, g5, g6, g7, g8, g9, rg, it⟩, ?_⟩
  rw [LidarPointData.parse, splitAtChecked_of_le h]
  simp only [hinfo, DataInfo.LEN, LidarInsideState.LEN, LidarCalibParam.LEN,
    PResult.ok_bind, List.drop_drop, hst, hpa, h1, h2, h3, h4, h5, h6, h7, h8, h9,
    hrg, hit, hnil, List.isEmpty_nil, if_true]

/-! ## Frame header and tail characterizations -/

theorem FrameHeader_parse_short {bs : Bytes} (h : bs.length < FrameHeader.LEN) :
    FrameHeader.parse bs = .err (.insufficientData FrameHeader.LEN bs.length) := by
  rw [FrameHeader.parse, splitAtChecked_of_lt h]

theorem readU32_le4_nil {n : Nat} (h : n < 2 ^ 32) : readU32 (le4 n) = .ok (n, []) := by
  show readU32 (n % 256 :: n / 256 % 256 :: n / 65536 % 256 :: n / 16777216 % 256 :: []) = _
  rw [readU32_cons, deLE4_le4 h]

/-- `FrameHeader::parse` on a well-formed header followed by any body. -/
theorem FrameHeader_parse_frame {pt ps : Nat} (body : Bytes)
    (hpt : pt < 2 ^ 32) (hps : ps < 2 ^ 32) :
    FrameHeader.parse (FrameHeader.magic ++ le4 pt ++ le4 ps ++ body) =
      .ok (⟨pt, ps⟩, body) := by
  have hassoc : FrameHeader.magic ++ le4 pt ++ le4 ps ++ body
      = (FrameHeader.magic ++ (le4 pt ++ le4 ps)) ++ body := by simp
  have hlen : (FrameHeader.magic ++ (le4 pt ++ le4 ps)).length = FrameHeader.LEN := rfl
  have h1 : readU32 (le4 pt ++ le4 ps) = .ok (pt, le4 ps) := readU32_le4 _ hpt
  have h2 : readU32 (le4 ps) = .ok (ps, []) := readU32_le4_nil hps
  rw [FrameHeader.parse, hassoc]
  simp only [splitAtChecked_append hlen, stripLead_append, h1, PResult.ok_bind, h2,
    List.isEmpty_nil, if_true]

theorem FrameHeader_parse_no_panic (bs : Bytes) : FrameHeader.parse bs ≠ .panic := by
  rcases Nat.lt_or_ge bs.length FrameHeader.LEN with hlt | hge
  · rw [FrameHeader_parse_short hlt]
    simp
  · have hnum : (12 : Nat) ≤ bs.length := hge
    rw [FrameHeader.parse, splitAtChecked_of_le hge]
    cases hsl : stripLead FrameHeader.magic (bs.take FrameHeader.LEN) with
    | none => simp [hsl]
    | some r =>
      have hrlen : r.length = 8 := by
        have hdrop := stripLead_eq_drop hsl
        rw [hdrop]
        simp [FrameHeader.magic, FrameHeader.LEN]
        omega
      obtain ⟨v1, h1⟩ := readU32_progress (r) (by omega)
      obtain ⟨v2, h2⟩ := readU32_progress (r.drop 4) (by simp [hrlen])
      have hnil : r.drop 8 = [] := by
        apply List.eq_nil_of_length_eq_zero
        simp [hrlen]
      simp only [hsl, h1, PResult.ok_bind, List.drop_drop, h2, hnil, List.isEmpty_nil, if_true]
      simp

theorem FrameTail_parse_short {bs : Bytes} (h : bs.length < FrameTail.LEN) :
    FrameTail.parse bs = .err (.insufficientData FrameTail.LEN bs.length) := by
  rw [FrameTail.parse, splitAtChecked_of_lt h]

/-- `FrameTail::parse` on a structurally complete 12-byte tail followed by
any remainder: succeeds exactly when the last two bytes are the tail magic. -/
theorem FrameTail_parse_frame {c m : Nat} (r0 r1 t0 t1 : Nat) (rest : Bytes)
    (hc : c < 2 ^ 32) (hm : m < 2 ^ 32) :
    FrameTail.parse (le4 c ++ le4 m ++ [r0, r1, t0, t1] ++ rest) =
      if [t0, t1] = FrameTail.magic then .ok (⟨c, m, [r0, r1]⟩, rest)
      else .err .wrongTail := by
  have hassoc : le4 c ++ le4 m ++ [r0, r1, t0, t1] ++ rest
      = (le4 c ++ (le4 m ++ [r0, r1, t0, t1])) ++ rest := by simp
  have hlen : (le4 c ++ (le4 m ++ [r0, r1, t0, t1])).length = FrameTail.LEN := rfl
  have h1 : readU32 (le4 c ++ (le4 m ++ [r0, r1, t0, t1])) =
      .ok (c, le4 m ++ [r0, r1, t0, t1]) := readU32_le4 _ hc
  have h2 : readU32 (le4 m ++ [r0, r1, t0, t1]) = .ok (m, [r0, r1, t0, t1]) :=
    readU32_le4 _ hm
  rw [FrameTail.parse, hassoc]
  simp only [splitAtChecked_append hlen, h1, PResult.ok_bind, h2, readU8_cons]

theorem FrameTail_parse_no_panic (bs : Bytes) : FrameTail.parse bs ≠ .panic := by
  rcases Nat.lt_or_ge bs.length FrameTail.LEN with hlt | hge
  · rw [FrameTail_parse_short hlt]
    simp
  · have hnum : (12 : Nat) ≤ bs.length := hge
    have hlen : (bs.take FrameTail.LEN).length = 12 := by
      simp [FrameTail.LEN]
      omega
    obtain ⟨v1, h1⟩ := readU32_progress (bs.take FrameTail.LEN) (by omega)
    obtain ⟨v2, h2⟩ := readU32_progress ((bs.take FrameTail.LEN).drop 4)
      (by simp [hlen])
    obtain ⟨b1, hb1⟩ := readU8_progress ((bs.take FrameTail.LEN).drop 8)
      (by simp [hlen])
    obtain ⟨b2, hb2⟩ := readU8_progress ((bs.take FrameTail.LEN).drop 9)
      (by simp [hlen])
    rw [FrameTail.parse, splitAtChecked_of_le hge]
    simp only [h1, PResult.ok_bind, List.drop_drop, h2, hb1, hb2]
    split <;> simp

/-! ## Absence of panics: every decode path is guarded -/

theorem PResult.bind_ne_panic {α β : Type} {x : PResult α} {f : α → PResult β}
    (hx : x ≠ .panic) (hf : ∀ a, f a ≠ .panic) : PResult.bind x f ≠ .panic := by
  cases x with
  | ok a => exact hf a
  | err e => simp
  | panic => exact absurd rfl hx

theorem PResult.bind_eq_ok {α β : Type} {x : PResult α} {f : α → PResult β} {b : β}
    (h : PResult.bind x f = .ok b) : ∃ a, x = .ok a ∧ f a = .ok b := by
  cases x with
  | ok a => exact ⟨a, rfl, h⟩
  | err e => cases h
  | panic => cases h

theorem PResult.ite_ne_panic {α : Type} (c : Prop) [Decidable c] (x y : PResult α)
    (hx : x ≠ .panic) (hy : y ≠ .panic) : (if c then x else y) ≠ .panic := by
  by_cases h : c
  · rwa [if_pos h]
  · rwa [if_neg h]

theorem StandbyType_tryFrom_no_panic (v : Nat) : StandbyType.tryFrom v ≠ .panic := by
  unfold StandbyType.tryFrom
  repeat' split
  all_goals simp

theorem UserCmd_tryFrom_no_panic (t v : Nat) : UserCmd.tryFrom t v ≠ .panic := by
  unfold UserCmd.tryFrom
  refine PResult.ite_ne_panic _ _ _ (by simp) ?_
  refine PResult.ite_ne_panic _ _ _
    (PResult.bind_ne_panic (StandbyType_tryFrom_no_panic v) (fun s => by simp)) ?_
  repeat (refine PResult.ite_ne_panic _ _ _ (by simp) ?_)
  simp

theorem Command_tryFrom_no_panic (t v : Nat) : Command.tryFrom t v ≠ .panic := by
  unfold Command.tryFrom
  repeat' split
  all_goals simp

theorem AckStatus_tryFrom_no_panic (v : Nat) : AckStatus.tryFrom v ≠ .panic := by
  unfold AckStatus.tryFrom
  repeat' split
  all_goals simp

theorem Ack_tryFrom_no_panic (d : LidarAckData) : Ack.tryFrom d ≠ .panic := by
  unfold Ack.tryFrom
  refine PResult.bind_ne_panic (AckStatus_tryFrom_no_panic d.status) (fun st => ?_)
  refine PResult.ite_ne_panic _ _ _
    (PResult.bind_ne_panic (UserCmd_tryFrom_no_panic _ _) (fun c => by simp)) ?_
  refine PResult.ite_ne_panic _ _ _
    (PResult.bind_ne_panic (Command_tryFrom_no_panic _ _) (fun c => by simp)) ?_
  refine PResult.ite_ne_panic _ _ _ (by simp) ?_
  simp

theorem WorkMode_tryFrom_no_panic (d : LidarWorkModeConfig) : WorkMode.tryFrom d ≠ .panic := by
  unfold WorkMode.tryFrom
  split <;> simp

theorem Version_tryFrom_no_panic (d : LidarVersionData) : Version.tryFrom d ≠ .panic := by
  unfold Version.tryFrom
  split <;> simp

theorem PacketType_tryFrom_no_panic (v : Nat) : PacketType.tryFrom v ≠ .panic := by
  unfold PacketType.tryFrom
  repeat (refine PResult.ite_ne_panic _ _ _ (by simp) ?_)
  simp

theorem LidarUserCtrlCmd_parse_ne_panic (bs : Bytes) : LidarUserCtrlCmd.parse bs ≠ .panic := by
  rcases Nat.lt_or_ge bs.length LidarUserCtrlCmd.LEN with hlt | hge
  · rw [LidarUserCtrlCmd_parse_short hlt]
    simp
  · obtain ⟨v, hv⟩ := LidarUserCtrlCmd_parse_progress _ hge
    rw [hv]
    simp

theorem LidarCommand_parse_ne_panic (bs : Bytes) : LidarCommand.parse bs ≠ .panic := by
  rcases Nat.lt_or_ge bs.length LidarCommand.LEN with hlt | hge
  · rw [LidarCommand_parse_short hlt]
    simp
  · obtain ⟨v, hv⟩ := LidarCommand_parse_progress _ hge
    rw [hv]
    simp

theorem LidarAckData_parse_ne_panic (bs : Bytes) : LidarAckData.parse bs ≠ .panic := by
  rcases Nat.lt_or_ge bs.length LidarAckData.LEN with hlt | hge
  · rw [LidarAckData_parse_short hlt]
    simp
  · obtain ⟨v, hv⟩ := LidarAckData_parse_progress _ hge
    rw [hv]
    simp

theorem LidarWorkModeConfig_parse_ne_panic (bs : Bytes) :
    LidarWorkModeConfig.parse bs ≠ .panic := by
  rcases Nat.lt_or_ge bs.length LidarWorkModeConfig.LEN with hlt | hge
  · rw [LidarWorkModeConfig_parse_short hlt]
    simp
  · obtain ⟨v, hv⟩ := LidarWorkModeConfig_parse_progress _ hge
    rw [hv]
    simp

theorem LidarVersionData_parse_ne_panic (bs : Bytes) : LidarVersionData.parse bs ≠ .panic := by
  rcases Nat.lt_or_ge bs.length LidarVersionData.LEN with hlt | hge
  · rw [LidarVersionData_parse_short hlt]
    simp
  · obtain ⟨v, hv⟩ := LidarVersionData_parse_progress _ hge
    rw [hv]
    simp

theorem LidarImuData_parse_ne_panic (bs : Bytes) : LidarImuData.parse bs ≠ .panic := by
  rcases Nat.lt_or_ge bs.length LidarImuData.LEN with hlt | hge
  · rw [LidarImuData_parse_short hlt]
    simp
  · obtain ⟨v, hv⟩ := LidarImuData_parse_progress _ hge
    rw [hv]
    simp

theorem LidarPointData_parse_ne_panic (bs : Bytes) : LidarPointData.parse bs ≠ .panic := by
  rcases Nat.lt_or_ge bs.length LidarPointData.LEN with hlt | hge
  · rw [LidarPointData_parse_short hlt]
    simp
  · obtain ⟨v, hv⟩ := LidarPointData_parse_progress _ hge
    rw [hv]
    simp

theorem Packet.decodePayload_no_panic (pt : Nat) (payload : Bytes) :
    Packet.decodePayload pt payload ≠ .panic := by
  unfold Packet.decodePayload
  refine PResult.bind_ne_panic (PacketType_tryFrom_no_panic pt) (fun t => ?_)
  cases t
  case lidarUserCmd =>
    exact PResult.bind_ne_panic (LidarUserCtrlCmd_parse_ne_panic payload) (fun a => by
      obtain ⟨cmd, r⟩ := a
      exact PResult.bind_ne_panic (UserCmd_tryFrom_no_panic _ _) (fun c => by simp))
  case lidarAckData =>
    exact PResult.bind_ne_panic (LidarAckData_parse_ne_panic payload) (fun a => by
      obtain ⟨d, r⟩ := a
      exact PResult.bind_ne_panic (Ack_tryFrom_no_panic _) (fun c => by simp))
  case lidarPointData =>
    exact PResult.bind_ne_panic (LidarPointData_parse_ne_panic payload) (fun a => by
      obtain ⟨d, r⟩ := a
      simp)
  case lidar2DPointData => simp
  case lidarImuData =>
    exact PResult.bind_ne_panic (LidarImuData_parse_ne_panic payload) (fun a => by
      obtain ⟨d, r⟩ := a
      simp)
  case lidarVersion =>
    exact PResult.bind_ne_panic (LidarVersionData_parse_ne_panic payload) (fun a => by
      obtain ⟨d, r⟩ := a
      exact PResult.bind_ne_panic (Version_tryFrom_no_panic _) (fun c => by simp))
  case lidarTimeStamp => simp
  case lidarWorkModeConfig =>
    exact PResult.bind_ne_panic (LidarWorkModeConfig_parse_ne_panic payload) (fun a => by
      obtain ⟨d, r⟩ := a
      exact PResult.bind_ne_panic (WorkMode_tryFrom_no_panic _) (fun c => by simp))
  case lidarIpAddressConfig => simp
  case lidarMacAddressConfig => simp
  case lidarCommand =>
    exact PResult.bind_ne_panic (LidarCommand_parse_ne_panic payload) (fun a => by
      obtain ⟨cmd, r⟩ := a
      exact PResult.bind_ne_panic (Command_tryFrom_no_panic _ _) (fun c => by simp))
  case lidarParamData => simp
  case lidarWorkMode =>
    exact PResult.bind_ne_panic (LidarWorkModeConfig_parse_ne_panic payload) (fun a => by
      obtain ⟨d, r⟩ := a
      exact PResult.bind_ne_panic (WorkMode_tryFrom_no_panic _) (fun c => by simp))

theorem Packet_parse_ne_panic (input : Bytes) : Packet.parse input ≠ .panic := by
  unfold Packet.parse
  refine PResult.bind_ne_panic (FrameHeader_parse_no_panic input) (fun a => ?_)
  obtain ⟨header, remainder⟩ := a
  dsimp only
  refine PResult.ite_ne_panic _ _ _ (by simp) ?_
  cases hsp : splitAtChecked (header.packet_size - (FrameHeader.LEN + FrameTail.LEN))
      remainder with
  | none => simp [hsp]
  | some pr =>
    obtain ⟨payload, rem2⟩ := pr
    simp only [hsp]
    refine PResult.bind_ne_panic (FrameTail_parse_no_panic rem2) (fun ta => ?_)
    obtain ⟨tail, rem3⟩ := ta
    dsimp only
    refine PResult.ite_ne_panic _ _ _ (by simp) ?_
    exact PResult.bind_ne_panic
      (Packet.decodePayload_no_panic header.packet_type payload) (fun p => by simp)

/-! ## Master characterization of `Packet::parse` on one complete frame -/

/-- `Packet::parse` on a buffer that starts with one structurally complete
frame: the tail magic is checked first (by `FrameTail::parse`), then the
payload CRC, then the packet type is dispatched; the remainder is exactly
the bytes after the frame. -/
theorem Packet_parse_frame (pt ps : Nat) (payload : Bytes) (c m r0 r1 t0 t1 : Nat)
    (rest : Bytes) (hpt : pt < 2 ^ 32) (hps : ps < 2 ^ 32)
    (hsz : ps = payload.length + 24) (hc : c < 2 ^ 32) (hm : m < 2 ^ 32) :
    Packet.parse (frameBytes pt ps payload c m r0 r1 t0 t1 rest) =
      if [t0, t1] = FrameTail.magic then
        if crc32 payload = c then
          PResult.bind (Packet.decodePayload pt payload) fun packet => .ok (packet, rest)
        else .err .crcMismatch
      else .err .wrongTail := by
  have hbody : frameBytes pt ps payload c m r0 r1 t0 t1 rest
      = FrameHeader.magic ++ le4 pt ++ le4 ps ++
          (payload ++ (le4 c ++ le4 m ++ [r0, r1, t0, t1] ++ rest)) := by
    simp [frameBytes]
  have hplen : ps - (FrameHeader.LEN + FrameTail.LEN) = payload.length := by
    simp only [FrameHeader.LEN, FrameTail.LEN]
    omega
  have hsmall : ¬ (ps < FrameHeader.LEN + FrameTail.LEN) := by
    simp only [FrameHeader.LEN, FrameTail.LEN]
    omega
  have hsplit : splitAtChecked (ps - (FrameHeader.LEN + FrameTail.LEN))
      (payload ++ (le4 c ++ le4 m ++ [r0, r1, t0, t1] ++ rest)) =
      some (payload, le4 c ++ le4 m ++ [r0, r1, t0, t1] ++ rest) := by
    rw [hplen]
    exact splitAtChecked_append rfl
  rw [Packet.parse, hbody, FrameHeader_parse_frame _ hpt hps]
  simp only [PResult.ok_bind]
  rw [if_neg hsmall]
  simp only [hsplit]
  rw [FrameTail_parse_frame _ _ _ _ rest hc hm]
  by_cases ht : [t0, t1] = FrameTail.magic
  · simp only [if_pos ht, PResult.ok_bind]
    by_cases hcrc : crc32 payload = c
    · simp [hcrc]
    · simp [hcrc]
  · simp [if_neg ht]

/-! ## Dispatch: an accepted payload yields the variant of the header's code -/

theorem PacketType_tryFrom_not_mem {v : Nat} (hv : v ∉ knownPacketCodes) :
    PacketType.tryFrom v = .err (.unknownPacketType v) := by
  simp only [knownPacketCodes, List.mem_cons, List.not_mem_nil, or_false, not_or] at hv
  obtain ⟨n1, n2, n3, n4, n5, n6, n7, n8, n9, n10, n11, n12, n13⟩ := hv
  unfold PacketType.tryFrom
  rw [if_neg n1, if_neg n2, if_neg n3, if_neg n4, if_neg n5, if_neg n6, if_neg n7,
    if_neg n8, if_neg n9, if_neg n10, if_neg n11, if_neg n12, if_neg n13]

theorem PacketType_tryFrom_code {v : Nat} {t : PacketType}
    (h : PacketType.tryFrom v = .ok t) : PacketType.code t = v := by
  by_cases hmem : v ∈ knownPacketCodes
  · fin_cases hmem <;> (cases h; rfl)
  · rw [PacketType_tryFrom_not_mem hmem] at h
    cases h

theorem Packet.decodePayload_typeCode {pt : Nat} {payload : Bytes} {p : Packet}
    (h : Packet.decodePayload pt payload = .ok p) : p.typeCode = pt := by
  rw [Packet.decodePayload] at h
  obtain ⟨t, htf, h⟩ := PResult.bind_eq_ok h
  have hcode := PacketType_tryFrom_code htf
  cases t
  case lidarUserCmd =>
    obtain ⟨⟨cmd, r⟩, hp, h2⟩ := PResult.bind_eq_ok h
    obtain ⟨c2, hc2, h3⟩ := PResult.bind_eq_ok h2
    cases h3
    simpa [Packet.typeCode, PacketType.code] using hcode
  case lidarAckData =>
    obtain ⟨⟨d, r⟩, hp, h2⟩ := PResult.bind_eq_ok h
    obtain ⟨a2, ha2, h3⟩ := PResult.bind_eq_ok h2
    cases h3
    simpa [Packet.typeCode, PacketType.code] using hcode
  case lidarPointData =>
    obtain ⟨⟨d, r⟩, hp, h2⟩ := PResult.bind_eq_ok h
    cases h2
    simpa [Packet.typeCode, PacketType.code] using hcode
  case lidar2DPointData =>
    cases h
    simpa [Packet.typeCode, PacketType.code] using hcode
  case lidarImuData =>
    obtain ⟨⟨d, r⟩, hp, h2⟩ := PResult.bind_eq_ok h
    cases h2
    simpa [Packet.typeCode, PacketType.code] using hcode
  case lidarVersion =>
    obtain ⟨⟨d, r⟩, hp, h2⟩ := PResult.bind_eq_ok h
    obtain ⟨v2, hv2, h3⟩ := PResult.bind_eq_ok h2
    cases h3
    simpa [Packet.typeCode, PacketType.code] using hcode
  case lidarTimeStamp =>
    cases h
    simpa [Packet.typeCode, PacketType.code] using hcode
  case lidarWorkModeConfig =>
    obtain ⟨⟨d, r⟩, hp, h2⟩ := PResult.bind_eq_ok h
    obtain ⟨m2, hm2, h3⟩ := PResult.bind_eq_ok h2
    cases h3
    simpa [Packet.typeCode, PacketType.code] using hcode
  case lidarIpAddressConfig =>
    cases h
    simpa [Packet.typeCode, PacketType.code] using hcode
  case lidarMacAddressConfig =>
    cases h
    simpa [Packet.typeCode, PacketType.code] using hcode
  case lidarCommand =>
    obtain ⟨⟨cmd, r⟩, hp, h2⟩ := PResult.bind_eq_ok h
    obtain ⟨c2, hc2, h3⟩ := PResult.bind_eq_ok h2
    cases h3
    simpa [Packet.typeCode, PacketType.code] using hcode
  case lidarParamData =>
    cases h
    simpa [Packet.typeCode, PacketType.code] using hcode
  case lidarWorkMode =>
    obtain ⟨⟨d, r⟩, hp, h2⟩ := PResult.bind_eq_ok h
    obtain ⟨m2, hm2, h3⟩ := PResult.bind_eq_ok h2
    cases h3
    simpa [Packet.typeCode, PacketType.code] using hcode

theorem Packet.typeCode_lt (p : Packet) : p.typeCode < 2 ^ 32 := by
  cases p <;> simp [Packet.typeCode]

/-! ## CRC32 stays within 32 bits on byte input -/

theorem crcStep_lt {c : Nat} (h : c < 2 ^ 32) : crcStep c < 2 ^ 32 := by
  unfold crcStep
  apply Nat.xor_lt_two_pow (by omega)
  split
  · simp [crcPoly]
  · positivity

theorem crcStep8_lt {c : Nat} (h : c < 2 ^ 32) : crcStep8 c < 2 ^ 32 :=
  crcStep_lt (crcStep_lt (crcStep_lt (crcStep_lt
    (crcStep_lt (crcStep_lt (crcStep_lt (crcStep_lt h)))))))

theorem crcUpdate_lt {c b : Nat} (hc : c < 2 ^ 32) (hb : b < 2 ^ 32) :
    crcUpdate c b < 2 ^ 32 :=
  crcStep8_lt (Nat.xor_lt_two_pow hc hb)

theorem foldl_crcUpdate_lt (data : Bytes) :
    ∀ c : Nat, c < 2 ^ 32 → (∀ b ∈ data, b < 2 ^ 32) →
      data.foldl crcUpdate c < 2 ^ 32 := by
  induction data with
  | nil => intro c hc _; simpa using hc
  | cons b bs ih =>
    intro c hc hb
    rw [List.foldl_cons]
    exact ih _ (crcUpdate_lt hc (hb b (by simp))) (fun x hx => hb x (by simp [hx]))

theorem crc32_lt {data : Bytes} (h : BytesOk data) : crc32 data < 2 ^ 32 := by
  unfold crc32
  exact Nat.xor_lt_two_pow
    (foldl_crcUpdate_lt data _ (by norm_num)
      (fun b hb => lt_trans (h b hb) (by norm_num)))
    (by norm_num)

/-! ## Claim theorems -/

/-- Claim C1: a buffer beginning with a well-formed frame (valid header
magic, consistent `packet_size`, correct payload CRC, valid tail magic, and
a payload accepted by the kind's decoder) parses to `Ok` with the packet
variant matching the header's type code, and the remainder is exactly the
bytes following the frame's 12-byte tail. -/
theorem claim_C1_parse_wellformed_frame
    (pt m r0 r1 : Nat) (payload rest : Bytes) (p : Packet)
    (hps : payload.length + 24 < 2 ^ 32) (hm : m < 2 ^ 32)
    (hbytes : BytesOk payload)
    (hdec : Packet.decodePayload pt payload = .ok p) :
    Packet.parse (frameBytes pt (payload.length + 24) payload (crc32 payload)
        m r0 r1 0x00 0xFF rest) = .ok (p, rest) ∧ p.typeCode = pt := by
  have hcode : p.typeCode = pt := Packet.decodePayload_typeCode hdec
  have hpt : pt < 2 ^ 32 := hcode ▸ Packet.typeCode_lt p
  refine ⟨?_, hcode⟩
  rw [Packet_parse_frame pt _ payload _ m r0 r1 0x00 0xFF rest hpt hps rfl
    (crc32_lt hbytes) hm]
  simp [FrameTail.magic, hdec]

/-- Claim C1 witness: a concrete ParamData frame (type 2001, empty payload)
followed by three trailing bytes parses to that packet with the trailing
bytes as remainder. -/
theorem claim_C1_witness :
    Packet.parse (frameBytes 2001 24 [] (crc32 []) 0 0 0 0x00 0xFF [1, 2, 3])
        = .ok (.lidarParamData [], [1, 2, 3]) ∧
      Packet.typeCode (.lidarParamData []) = 2001 := by
  have h := claim_C1_parse_wellformed_frame 2001 0 0 0 [] [1, 2, 3]
    (.lidarParamData []) (by decide) (by decide) (by decide) (by decide)
  simpa using h

/-- Claim C9: `Packet::parse` is total on arbitrary input — it always
returns `Ok` or an error and never reaches a panic (modelled by the
`PResult.panic` outcome covering `bytes::Buf` under-reads and the
`unreachable!` branches). -/
theorem claim_C9_parse_total (input : Bytes) :
    (∃ r, Packet.parse input = .ok r) ∨ (∃ e, Packet.parse input = .err e) := by
  cases h : Packet.parse input with
  | ok r => exact .inl ⟨r, rfl⟩
  | err e => exact .inr ⟨e, rfl⟩
  | panic => exact absurd h (Packet_parse_ne_panic input)

/-- Claim C4: with a parsed 12-byte header (`FrameHeader::LEN = 12`,
`FrameTail::LEN = 12`), a `packet_size` below 24 fails with the
length-underflow error, and a `packet_size` of at least 24 with fewer than
`packet_size - 24` bytes following the header fails with the
payload-truncated error. -/
theorem claim_C4_underflow_and_truncation
    (pt ps : Nat) (body : Bytes) (hpt : pt < 2 ^ 32) (hps : ps < 2 ^ 32) :
    FrameHeader.LEN = 12 ∧ FrameTail.LEN = 12 ∧
    (ps < 24 →
      Packet.parse (FrameHeader.magic ++ le4 pt ++ le4 ps ++ body)
        = .err .tooSmallForPayload) ∧
    (24 ≤ ps → body.length < ps - 24 →
      Packet.parse (FrameHeader.magic ++ le4 pt ++ le4 ps ++ body)
        = .err .payloadTruncated) := by
  refine ⟨rfl, rfl, ?_, ?_⟩
  · intro hlt
    rw [Packet.parse, FrameHeader_parse_frame _ hpt hps]
    simp only [PResult.ok_bind]
    rw [if_pos (by simp only [FrameHeader.LEN, FrameTail.LEN]; omega)]
  · intro hge htr
    rw [Packet.parse, FrameHeader_parse_frame _ hpt hps]
    simp only [PResult.ok_bind]
    rw [if_neg (by simp only [FrameHeader.LEN, FrameTail.LEN]; omega)]
    rw [splitAtChecked_of_lt (show body.length < ps - (FrameHeader.LEN + FrameTail.LEN) by
      simp only [FrameHeader.LEN, FrameTail.LEN]
      omega)]

/-- Claim C4 witness: `packet_size = 23` underflows; `packet_size = 25`
with an empty body is truncated. -/
theorem claim_C4_witness :
    Packet.parse (FrameHeader.magic ++ le4 7 ++ le4 23 ++ []) = .err .tooSmallForPayload ∧
    Packet.parse (FrameHeader.magic ++ le4 7 ++ le4 25 ++ []) = .err .payloadTruncated := by
  refine ⟨?_, ?_⟩
  · exact (claim_C4_underflow_and_truncation 7 23 [] (by decide) (by decide)).2.2.1
      (by decide)
  · exact (claim_C4_underflow_and_truncation 7 25 [] (by decide) (by decide)).2.2.2
      (by decide) (by decide)

/-- Claim C5: an otherwise intact frame (valid envelope and CRC) whose
header `packet_type` is outside {100–109, 2000, 2001, 2002} fails with
`unknown packet type` carrying the offending code. -/
theorem claim_C5_unknown_packet_type
    (pt m r0 r1 : Nat) (payload rest : Bytes)
    (hpt : pt < 2 ^ 32) (hm : m < 2 ^ 32)
    (hps : payload.length + 24 < 2 ^ 32)
    (hbytes : BytesOk payload)
    (hunk : pt ∉ knownPacketCodes) :
    Packet.parse (frameBytes pt (payload.length + 24) payload (crc32 payload)
        m r0 r1 0x00 0xFF rest) = .err (.unknownPacketType pt) := by
  rw [Packet_parse_frame pt _ payload _ m r0 r1 0x00 0xFF rest hpt hps rfl
    (crc32_lt hbytes) hm]
  rw [if_pos (show ([0, 255] : Bytes) = FrameTail.magic from rfl), if_pos rfl,
    Packet.decodePayload, PacketType_tryFrom_not_mem hunk]
  simp

/-- Claim C5 witness: `packet_type = 999` yields `UnknownPacketType(999)`. -/
theorem claim_C5_witness :
    Packet.parse (frameBytes 999 24 [] (crc32 []) 0 0 0 0x00 0xFF [])
        = .err (.unknownPacketType 999) :=
  claim_C5_unknown_packet_type 999 0 0 0 [] [] (by decide) (by decide) (by decide)
    (by decide) (by decide)

/-- Claim C10 (for the fixed-size IMU kind, type 104, record size 56): when
`payload_len` exceeds the record size, parsing still succeeds if the leading
record bytes, CRC, and tail are valid, the decoded value is the one obtained
from the leading 56 record bytes alone, and the surplus payload bytes appear
neither in the decoded value nor in the returned remainder. -/
theorem claim_C10_imu_surplus_discarded
    (record surplus rest : Bytes) (m r0 r1 : Nat)
    (hrec : record.length = 56) (hm : m < 2 ^ 32)
    (hps : (record ++ surplus).length + 24 < 2 ^ 32)
    (hbytes : BytesOk (record ++ surplus)) :
    ∃ v, Packet.parse (frameBytes 104 ((record ++ surplus).length + 24)
          (record ++ surplus) (crc32 (record ++ surplus)) m r0 r1 0x00 0xFF rest)
        = .ok (.lidarImuData v, rest) ∧ LidarImuData.parse record = .ok (v, []) := by
  obtain ⟨v, hv1, hv2⟩ := LidarImuData_parse_split surplus hrec
  refine ⟨v, ?_, hv2⟩
  rw [Packet_parse_frame 104 _ _ _ m r0 r1 0x00 0xFF rest (by norm_num) hps rfl
    (crc32_lt hbytes) hm]
  rw [if_pos (show ([0, 255] : Bytes) = FrameTail.magic from rfl), if_pos rfl,
    Packet.decodePayload]
  rw [show PacketType.tryFrom 104 = .ok .lidarImuData from rfl]
  simp only [PResult.ok_bind, hv1]

/-- Claim C10 witness: a 56-byte zero record with one surplus byte decodes
to the same IMU value the bare record decodes to, with the surplus absent
from the remainder. -/
theorem claim_C10_witness :
    ∃ v, Packet.parse (frameBytes 104 ((List.replicate 56 0 ++ [7]).length + 24)
          (List.replicate 56 0 ++ [7]) (crc32 (List.replicate 56 0 ++ [7]))
          0 0 0 0x00 0xFF [])
        = .ok (.lidarImuData v, []) ∧
      LidarImuData.parse (List.replicate 56 0) = .ok (v, []) :=
  claim_C10_imu_surplus_discarded (List.replicate 56 0) [7] [] 0 0 0
    (by decide) (by decide) (by decide) (by decide)

/-- Claim C3 counterexample: a fully present frame whose payload CRC does
not match the stored `crc32` field AND whose trailing 2 tail-magic bytes
are wrong fails with the tail magic-mismatch error (`wrong tail`), not the
CRC-mismatch error: `FrameTail::parse` runs before the CRC comparison. The
frame has type 2001, empty payload (CRC 0, stored CRC 1) and tail bytes
`AA BB` in place of `00 FF`. -/
theorem claim_C3_counterexample :
    Packet.parse (frameBytes 2001 24 [] 1 0 0 0 0xAA 0xBB []) = .err .wrongTail ∧
    Packet.parse (frameBytes 2001 24 [] 1 0 0 0 0xAA 0xBB []) ≠ .err .crcMismatch := by
  decide

/-- Claim C3 (amended): the tail read (with its magic check) precedes the
CRC comparison — for every fully present frame whose payload CRC does not
match the stored `crc32` field and whose trailing 2 tail-magic bytes differ
from the frame-end constant, decoding fails with the tail magic-mismatch
error (`wrong tail`), not the CRC-mismatch error. -/
theorem claim_C3_amended_tail_checked_before_crc
    (pt c m r0 r1 t0 t1 : Nat) (payload rest : Bytes)
    (hpt : pt < 2 ^ 32) (hps : payload.length + 24 < 2 ^ 32)
    (hc : c < 2 ^ 32) (hm : m < 2 ^ 32)
    (_hcrc : crc32 payload ≠ c)
    (ht : [t0, t1] ≠ FrameTail.magic) :
    Packet.parse (frameBytes pt (payload.length + 24) payload c m r0 r1 t0 t1 rest)
      = .err .wrongTail := by
  rw [Packet_parse_frame pt _ payload c m r0 r1 t0 t1 rest hpt hps rfl hc hm]
  rw [if_neg ht]

/-- Claim C3 amended witness: the concrete frame of the counterexample
satisfies the amended statement. -/
theorem claim_C3_amended_witness :
    Packet.parse (frameBytes 2001 24 [] 1 0 0 0 0xAA 0xBB []) = .err .wrongTail :=
  claim_C3_amended_tail_checked_before_crc 2001 1 0 0 0 0xAA 0xBB [] []
    (by decide) (by decide) (by decide) (by decide) (by decide) (by decide)

/-! ## Work-mode bit field (C6) -/

theorem and_two_pow_ne_zero (x k : Nat) : decide (x &&& 2 ^ k ≠ 0) = x.testBit k := by
  rcases hb : x.testBit k
  · simp [Nat.and_two_pow, hb]
  · simp [Nat.and_two_pow, hb]

theorem and_mask_eq_zero_iff {flags : Nat} (hf : flags < 2 ^ 32) :
    flags &&& 0xFFFFFFE0 = 0 ↔ ∀ i, 5 ≤ i → i ≤ 31 → flags.testBit i = false := by
  constructor
  · intro hand i h5 h31
    have hz : (flags &&& 0xFFFFFFE0).testBit i = false := by
      rw [hand, Nat.zero_testBit]
    rw [Nat.testBit_and] at hz
    have hm : Nat.testBit 0xFFFFFFE0 i = true := by
      interval_cases i <;> decide
    simpa [hm] using hz
  · intro hbits
    apply Nat.eq_of_testBit_eq
    intro i
    rw [Nat.testBit_and, Nat.zero_testBit]
    rcases Nat.lt_or_ge i 5 with hi5 | hi5
    · have hm : Nat.testBit 0xFFFFFFE0 i = false := by
        interval_cases i <;> decide
      simp [hm]
    · rcases Nat.lt_or_ge i 32 with hi32 | hi32
      · rw [hbits i hi5 (by omega)]
        simp
      · rw [Nat.testBit_lt_two_pow (lt_of_lt_of_le hf (Nat.pow_le_pow_right (by norm_num) hi32))]
        simp

/-- Claim C6: decoding a WorkMode/WorkModeConfig payload from its `u32` bit
field succeeds exactly when bits 5–31 are all zero; on success bit 0 is
`wide_angle`, bit 1 `measure_2d`, bit 2 `disable_imu`, bit 3 `serial_mode`,
bit 4 `wait_start`. The word `0b100001` (bits 0 and 5) is a decode error;
`0b10001` (bits 0 and 4) decodes to `wide_angle = true, wait_start = true`
with every other flag false. -/
theorem claim_C6_workmode_bitfield (flags : Nat) (hf : flags < 2 ^ 32) :
    ((∃ m, WorkMode.tryFrom ⟨flags⟩ = .ok m) ↔
      ∀ i, 5 ≤ i → i ≤ 31 → flags.testBit i = false) ∧
    (∀ m, WorkMode.tryFrom ⟨flags⟩ = .ok m →
      m.wide_angle = flags.testBit 0 ∧ m.measure_2d = flags.testBit 1 ∧
      m.disable_imu = flags.testBit 2 ∧ m.serial_mode = flags.testBit 3 ∧
      m.wait_start = flags.testBit 4) ∧
    WorkMode.tryFrom ⟨0b100001⟩ = .err (.unknownModeFlags 0b100001) ∧
    WorkMode.tryFrom ⟨0b10001⟩ = .ok ⟨true, false, false, false, true⟩ := by
  refine ⟨?_, ?_, by decide, by decide⟩
  · constructor
    · rintro ⟨m, hm⟩
      rw [WorkMode.tryFrom] at hm
      split at hm
      · cases hm
      · rename_i hmask
        rw [not_not] at hmask
        exact (and_mask_eq_zero_iff hf).mp hmask
    · intro hbits
      rw [WorkMode.tryFrom, if_neg (by simpa using (and_mask_eq_zero_iff hf).mpr hbits)]
      exact ⟨_, rfl⟩
  · intro m hm
    rw [WorkMode.tryFrom] at hm
    split at hm
    · cases hm
    · cases hm
      refine ⟨?_, ?_, ?_, ?_, ?_⟩
      · exact and_two_pow_ne_zero flags 0
      · simpa using and_two_pow_ne_zero flags 1
      · simpa using and_two_pow_ne_zero flags 2
      · simpa using and_two_pow_ne_zero flags 3
      · simpa using and_two_pow_ne_zero flags 4

/-- Claim C6 witness: instantiated at the in-range mode word `0b10001`. -/
theorem claim_C6_witness :
    ((∃ m, WorkMode.tryFrom ⟨0b10001⟩ = .ok m) ↔
      ∀ i, 5 ≤ i → i ≤ 31 → Nat.testBit 0b10001 i = false) ∧
    (∀ m, WorkMode.tryFrom ⟨0b10001⟩ = .ok m →
      m.wide_angle = Nat.testBit 0b10001 0 ∧ m.measure_2d = Nat.testBit 0b10001 1 ∧
      m.disable_imu = Nat.testBit 0b10001 2 ∧ m.serial_mode = Nat.testBit 0b10001 3 ∧
      m.wait_start = Nat.testBit 0b10001 4) ∧
    WorkMode.tryFrom ⟨0b100001⟩ = .err (.unknownModeFlags 0b100001) ∧
    WorkMode.tryFrom ⟨0b10001⟩ = .ok ⟨true, false, false, false, true⟩ :=
  claim_C6_workmode_bitfield 0b10001 (by decide)

/-- Claim C7: in Version decoding, the 24 name bytes are right-trimmed of
all trailing NUL bytes and the remaining prefix must be valid UTF-8 —
invalid UTF-8 fails the decode; a name field of the bytes of `"L1"`
(`4C 31`) followed by 22 NUL bytes decodes to exactly the two bytes of
`"L1"` (a Rust `String` is modelled as its UTF-8 byte sequence). -/
theorem claim_C7_version_name_trimming (v : LidarVersionData) :
    ((∃ ver, Version.tryFrom v = .ok ver) ↔ utf8Valid (trimNulRight v.name) = true) ∧
    (∀ ver, Version.tryFrom v = .ok ver → ver.name = trimNulRight v.name) ∧
    (v.name = [0x4C, 0x31] ++ List.replicate 22 0 →
      ∃ ver, Version.tryFrom v = .ok ver ∧ ver.name = [0x4C, 0x31]) := by
  refine ⟨⟨?_, ?_⟩, ?_, ?_⟩
  · rintro ⟨ver, hver⟩
    rw [Version.tryFrom] at hver
    split at hver
    · assumption
    · cases hver
  · intro hu
    rw [Version.tryFrom, if_pos hu]
    exact ⟨_, rfl⟩
  · intro ver hver
    rw [Version.tryFrom] at hver
    split at hver
    · cases hver
      rfl
    · cases hver
  · intro hname
    have htrim : trimNulRight v.name = [0x4C, 0x31] := by
      rw [hname]
      decide
    rw [Version.tryFrom, htrim]
    exact ⟨_, by rw [if_pos (by decide)], rfl⟩

/-- Claim C7 witness: instantiated at the record whose name field is
`"L1"` followed by 22 NULs (all other fields zero). -/
theorem claim_C7_witness :
    ∃ ver, Version.tryFrom
        ⟨List.replicate 4 0, List.replicate 4 0, [0x4C, 0x31] ++ List.replicate 22 0,
         List.replicate 8 0x30, List.replicate 40 0⟩ = .ok ver ∧
      ver.name = [0x4C, 0x31] :=
  (claim_C7_version_name_trimming
    ⟨List.replicate 4 0, List.replicate 4 0, [0x4C, 0x31] ++ List.replicate 22 0,
     List.replicate 8 0x30, List.replicate 40 0⟩).2.2 rfl

/-! ## Acknowledgement decoding (C8) -/

theorem AckStatus_tryFrom_not_mem {st : Nat} (h : st ∉ ([1, 2, 3, 4, 5] : List Nat)) :
    AckStatus.tryFrom st = .err (.unknownAckStatus st) := by
  simp only [List.mem_cons, List.not_mem_nil, or_false, not_or] at h
  obtain ⟨n1, n2, n3, n4, n5⟩ := h
  unfold AckStatus.tryFrom
  rw [if_neg n1, if_neg n2, if_neg n3, if_neg n4, if_neg n5]

theorem AckStatus_tryFrom_ok_iff (st : Nat) :
    (∃ s, AckStatus.tryFrom st = .ok s) ↔ st ∈ ([1, 2, 3, 4, 5] : List Nat) := by
  constructor
  · rintro ⟨s, hs⟩
    by_cases hm : st ∈ ([1, 2, 3, 4, 5] : List Nat)
    · exact hm
    · rw [AckStatus_tryFrom_not_mem hm] at hs
      cases hs
  · intro hm
    fin_cases hm <;> exact ⟨_, rfl⟩

/-- Claim C8: decoding a 16-byte AckData record (four little-endian `u32`
fields) succeeds exactly when the status value is in {1, 2, 3, 4, 5}
(mapped to Success, CrcError, HeaderError, BlockError, WaitError) and the
echoed packet type is 100 (yielding `Ack::UserCmd` with the pair decoded as
a `UserCmd`), 2000 (`Ack::Command` with the pair decoded as a `Command`),
or 2002 (`Ack::WorkMode` carrying the raw pair); any other status or echoed
packet type is a decode error. -/
theorem claim_C8_ack_decode (d : LidarAckData) :
    ((∃ a, Ack.tryFrom d = .ok a) ↔
      (d.status ∈ ([1, 2, 3, 4, 5] : List Nat) ∧
        ((d.packet_type = 100 ∧ ∃ u, UserCmd.tryFrom d.cmd_type d.cmd_value = .ok u) ∨
         (d.packet_type = 2000 ∧ ∃ cm, Command.tryFrom d.cmd_type d.cmd_value = .ok cm) ∨
         d.packet_type = 2002))) ∧
    (AckStatus.tryFrom 1 = .ok .success ∧ AckStatus.tryFrom 2 = .ok .crcError ∧
     AckStatus.tryFrom 3 = .ok .headerError ∧ AckStatus.tryFrom 4 = .ok .blockError ∧
     AckStatus.tryFrom 5 = .ok .waitError) ∧
    (∀ a st, Ack.tryFrom d = .ok a → AckStatus.tryFrom d.status = .ok st →
      ((d.packet_type = 100 →
          ∃ u, UserCmd.tryFrom d.cmd_type d.cmd_value = .ok u ∧ a = .userCmd u st) ∧
       (d.packet_type = 2000 →
          ∃ cm, Command.tryFrom d.cmd_type d.cmd_value = .ok cm ∧ a = .command cm st) ∧
       (d.packet_type = 2002 → a = .workMode d.cmd_type d.cmd_value st))) ∧
    (∀ pt ct cv st : Nat, pt < 2 ^ 32 → ct < 2 ^ 32 → cv < 2 ^ 32 → st < 2 ^ 32 →
      LidarAckData.parse (le4 pt ++ le4 ct ++ le4 cv ++ le4 st)
        = .ok (⟨pt, ct, cv, st⟩, [])) := by
  refine ⟨⟨?_, ?_⟩, by decide, ?_, ?_⟩
  · rintro ⟨a, ha⟩
    rw [Ack.tryFrom] at ha
    obtain ⟨st, hst, ha2⟩ := PResult.bind_eq_ok ha
    refine ⟨(AckStatus_tryFrom_ok_iff d.status).mp ⟨st, hst⟩, ?_⟩
    by_cases h1 : d.packet_type = 100
    · rw [if_pos h1] at ha2
      obtain ⟨u, hu, _⟩ := PResult.bind_eq_ok ha2
      exact .inl ⟨h1, u, hu⟩
    · rw [if_neg h1] at ha2
      by_cases h2 : d.packet_type = 2000
      · rw [if_pos h2] at ha2
        obtain ⟨cm, hcm, _⟩ := PResult.bind_eq_ok ha2
        exact .inr (.inl ⟨h2, cm, hcm⟩)
      · rw [if_neg h2] at ha2
        by_cases h3 : d.packet_type = 2002
        · exact .inr (.inr h3)
        · rw [if_neg h3] at ha2
          cases ha2
  · rintro ⟨hstm, hd⟩
    obtain ⟨st, hst⟩ := (AckStatus_tryFrom_ok_iff d.status).mpr hstm
    rcases hd with ⟨h1, u, hu⟩ | ⟨h2, cm, hcm⟩ | h3
    · refine ⟨.userCmd u st, ?_⟩
      rw [Ack.tryFrom]
      simp only [hst, PResult.ok_bind]
      rw [if_pos h1]
      simp only [hu, PResult.ok_bind]
    · refine ⟨.command cm st, ?_⟩
      rw [Ack.tryFrom]
      simp only [hst, PResult.ok_bind]
      rw [if_neg (by rw [h2]; norm_num), if_pos h2]
      simp only [hcm, PResult.ok_bind]
    · refine ⟨.workMode d.cmd_type d.cmd_value st, ?_⟩
      rw [Ack.tryFrom]
      simp only [hst, PResult.ok_bind]
      rw [if_neg (by rw [h3]; norm_num), if_neg (by rw [h3]; norm_num), if_pos h3]
  · intro a st ha hst
    rw [Ack.tryFrom] at ha
    obtain ⟨st', hst', ha2⟩ := PResult.bind_eq_ok ha
    have hsteq : st' = st := by
      rw [hst] at hst'
      cases hst'
      rfl
    subst hsteq
    refine ⟨?_, ?_, ?_⟩
    · intro hp
      rw [if_pos hp] at ha2
      obtain ⟨u, hu, hv⟩ := PResult.bind_eq_ok ha2
      cases hv
      exact ⟨u, hu, rfl⟩
    · intro hp
      rw [if_neg (by rw [hp]; norm_num), if_pos hp] at ha2
      obtain ⟨cm, hcm, hv⟩ := PResult.bind_eq_ok ha2
      cases hv
      exact ⟨cm, hcm, rfl⟩
    · intro hp
      rw [if_neg (by rw [hp]; norm_num), if_neg (by rw [hp]; norm_num),
        if_pos hp] at ha2
      cases ha2
      rfl
  · intro pt ct cv st hpt hct hcv hst
    have hsplit : splitAtChecked LidarAckData.LEN (le4 pt ++ le4 ct ++ le4 cv ++ le4 st)
        = some (le4 pt ++ le4 ct ++ le4 cv ++ le4 st, []) := by
      rw [splitAtChecked_of_le (by simp [le4, LidarAckData.LEN])]
      rw [List.take_of_length_le (by simp [le4, LidarAckData.LEN]),
        List.drop_eq_nil_of_le (by simp [le4, LidarAckData.LEN])]
    have h1 : readU32 (le4 pt ++ (le4 ct ++ (le4 cv ++ le4 st)))
        = .ok (pt, le4 ct ++ (le4 cv ++ le4 st)) := readU32_le4 _ hpt
    have h2 : readU32 (le4 ct ++ (le4 cv ++ le4 st))
        = .ok (ct, le4 cv ++ le4 st) := readU32_le4 _ hct
    have h3 : readU32 (le4 cv ++ le4 st) = .ok (cv, le4 st) := readU32_le4 _ hcv
    have h4 : readU32 (le4 st) = .ok (st, []) := readU32_le4_nil hst
    rw [LidarAckData.parse, hsplit]
    simp only [List.append_assoc, h1, PResult.ok_bind, h2, h3, h4,
      List.isEmpty_nil, if_true]

/-- Claim C8 witness: a record echoing packet type 2000 with command pair
`(4, 0)` (VersionGet) and status 1 decodes to `Ack::Command` with status
Success; the record parse conjunct instantiated at `(2000, 4, 0, 1)`. -/
theorem claim_C8_witness :
    (∃ a, Ack.tryFrom ⟨2000, 4, 0, 1⟩ = .ok a) ∧
    LidarAckData.parse (le4 2000 ++ le4 4 ++ le4 0 ++ le4 1)
      = .ok (⟨2000, 4, 0, 1⟩, []) := by
  constructor
  · exact ((claim_C8_ack_decode ⟨2000, 4, 0, 1⟩).1).mpr
      (by
        refine ⟨by decide, .inr (.inl ⟨rfl, .versionGet 0, by decide⟩)⟩)
  · exact (claim_C8_ack_decode ⟨2000, 4, 0, 1⟩).2.2.2 2000 4 0 1
      (by decide) (by decide) (by decide) (by decide)

/-! ## CRC32 injectivity: each bit step is a bijection on 32-bit values,
so a change in any single payload byte always changes the checksum -/

theorem crcPoly_testBit_31 : Nat.testBit crcPoly 31 = true := by decide

theorem crcInv_crcStep {c : Nat} (h : c < 2 ^ 32) : crcInv (crcStep c) = c := by
  rcases Nat.mod_two_eq_zero_or_one c with h2 | h2
  · have hstep : crcStep c = c / 2 := by
      unfold crcStep
      rw [if_neg (by omega), Nat.xor_zero]
    have hlt : c / 2 < 2 ^ 31 := by omega
    rw [hstep, crcInv, if_neg (by simp [Nat.testBit_lt_two_pow hlt])]
    omega
  · have hstep : crcStep c = c / 2 ^^^ crcPoly := by
      unfold crcStep
      rw [if_pos h2]
    have hlt : c / 2 < 2 ^ 31 := by omega
    have htb : (c / 2 ^^^ crcPoly).testBit 31 = true := by
      rw [Nat.testBit_xor, Nat.testBit_lt_two_pow hlt, crcPoly_testBit_31]
      rfl
    rw [hstep, crcInv, if_pos htb, Nat.xor_assoc, Nat.xor_self, Nat.xor_zero]
    omega

theorem crcStep_inj {a b : Nat} (ha : a < 2 ^ 32) (hb : b < 2 ^ 32)
    (h : crcStep a = crcStep b) : a = b := by
  have hh := congrArg crcInv h
  rwa [crcInv_crcStep ha, crcInv_crcStep hb] at hh

theorem crcStep8_inj {a b : Nat} (ha : a < 2 ^ 32) (hb : b < 2 ^ 32)
    (h : crcStep8 a = crcStep8 b) : a = b := by
  unfold crcStep8 at h
  apply crcStep_inj ha hb
  apply crcStep_inj (crcStep_lt ha) (crcStep_lt hb)
  apply crcStep_inj (crcStep_lt (crcStep_lt ha)) (crcStep_lt (crcStep_lt hb))
  apply crcStep_inj (crcStep_lt (crcStep_lt (crcStep_lt ha)))
    (crcStep_lt (crcStep_lt (crcStep_lt hb)))
  apply crcStep_inj (crcStep_lt (crcStep_lt (crcStep_lt (crcStep_lt ha))))
    (crcStep_lt (crcStep_lt (crcStep_lt (crcStep_lt hb))))
  apply crcStep_inj (crcStep_lt (crcStep_lt (crcStep_lt (crcStep_lt (crcStep_lt ha)))))
    (crcStep_lt (crcStep_lt (crcStep_lt (crcStep_lt (crcStep_lt hb)))))
  apply crcStep_inj
    (crcStep_lt (crcStep_lt (crcStep_lt (crcStep_lt (crcStep_lt (crcStep_lt ha))))))
    (crcStep_lt (crcStep_lt (crcStep_lt (crcStep_lt (crcStep_lt (crcStep_lt hb))))))
  apply crcStep_inj
    (crcStep_lt (crcStep_lt (crcStep_lt (crcStep_lt (crcStep_lt
      (crcStep_lt (crcStep_lt ha)))))))
    (crcStep_lt (crcStep_lt (crcStep_lt (crcStep_lt (crcStep_lt
      (crcStep_lt (crcStep_lt hb)))))))
  exact h

theorem crcUpdate_inj_left {x y b : Nat} (hx : x < 2 ^ 32) (hy : y < 2 ^ 32)
    (hb : b < 2 ^ 32) (h : crcUpdate x b = crcUpdate y b) : x = y := by
  unfold crcUpdate at h
  have hxb := crcStep8_inj (Nat.xor_lt_two_pow hx hb) (Nat.xor_lt_two_pow hy hb) h
  have hcx : x ^^^ b ^^^ b = y ^^^ b ^^^ b := by rw [hxb]
  rwa [Nat.xor_cancel_right, Nat.xor_cancel_right] at hcx

theorem crcUpdate_inj_right {c b b' : Nat} (hc : c < 2 ^ 32) (hb : b < 2 ^ 32)
    (hb' : b' < 2 ^ 32) (h : crcUpdate c b = crcUpdate c b') : b = b' := by
  unfold crcUpdate at h
  have hcb := crcStep8_inj (Nat.xor_lt_two_pow hc hb) (Nat.xor_lt_two_pow hc hb') h
  have hx : c ^^^ (c ^^^ b) = c ^^^ (c ^^^ b') := by rw [hcb]
  rwa [← Nat.xor_assoc, Nat.xor_self, Nat.zero_xor,
    ← Nat.xor_assoc, Nat.xor_self, Nat.zero_xor] at hx

theorem foldl_crcUpdate_inj (suf : Bytes) (hsuf : ∀ x ∈ suf, x < 2 ^ 32) :
    ∀ {x y : Nat}, x < 2 ^ 32 → y < 2 ^ 32 → x ≠ y →
      suf.foldl crcUpdate x ≠ suf.foldl crcUpdate y := by
  induction suf with
  | nil =>
    intro x y _ _ hne
    simpa using hne
  | cons b bs ih =>
    intro x y hx hy hne
    rw [List.foldl_cons, List.foldl_cons]
    have hb : b < 2 ^ 32 := hsuf b (by simp)
    exact ih (fun z hz => hsuf z (by simp [hz]))
      (crcUpdate_lt hx hb) (crcUpdate_lt hy hb)
      (fun hu => hne (crcUpdate_inj_left hx hy hb hu))

/-- Changing one byte of the input always changes the CRC32 checksum. -/
theorem crc32_flip (pre suf : Bytes) (b b' : Nat)
    (hpre : ∀ x ∈ pre, x < 2 ^ 32) (hsuf : ∀ x ∈ suf, x < 2 ^ 32)
    (hb : b < 2 ^ 32) (hb' : b' < 2 ^ 32) (hne : b ≠ b') :
    crc32 (pre ++ b :: suf) ≠ crc32 (pre ++ b' :: suf) := by
  unfold crc32
  intro h
  have hx : (pre ++ b :: suf).foldl crcUpdate 0xFFFFFFFF
      = (pre ++ b' :: suf).foldl crcUpdate 0xFFFFFFFF := by
    have hcx := congrArg (· ^^^ 0xFFFFFFFF) h
    simpa [Nat.xor_cancel_right] using hcx
  rw [List.foldl_append, List.foldl_append, List.foldl_cons, List.foldl_cons] at hx
  have hc0 : pre.foldl crcUpdate 0xFFFFFFFF < 2 ^ 32 :=
    foldl_crcUpdate_lt pre _ (by norm_num) hpre
  exact foldl_crcUpdate_inj suf hsuf
    (crcUpdate_lt hc0 hb) (crcUpdate_lt hc0 hb')
    (fun hu => hne (crcUpdate_inj_right hc0 hb hb' hu)) hx

set_option maxRecDepth 4096 in
/-- The CRC32 model matches the standard ISO-HDLC check vector:
`crc32("123456789") = 0xCBF43926`. -/
theorem crc32_check_vector :
    crc32 [0x31, 0x32, 0x33, 0x34, 0x35, 0x36, 0x37, 0x38, 0x39] = 0xCBF43926 := by
  decide

/-- Claim C2: the CRC accepted by `Packet::parse` is CRC32/ISO-HDLC over
the payload bytes only (`crc32` here is that checksum of the payload slice,
not including the header): (a) a fully present frame decodes successfully
only if the stored `crc32` tail field equals that checksum of the payload;
(b) flipping any single payload byte while leaving the stored checksum
unchanged fails with a CRC mismatch; (c) changing the stored `crc32` field
while the payload is unchanged also fails with a CRC mismatch. -/
theorem claim_C2_crc_payload_only
    (pt m r0 r1 c : Nat) (payload rest : Bytes)
    (hpt : pt < 2 ^ 32) (hm : m < 2 ^ 32) (hc : c < 2 ^ 32)
    (hps : payload.length + 24 < 2 ^ 32)
    (hbytes : BytesOk payload) :
    (∀ r, Packet.parse (frameBytes pt (payload.length + 24) payload c
        m r0 r1 0x00 0xFF rest) = .ok r → c = crc32 payload) ∧
    (∀ (pre suf : Bytes) (b b' : Nat), payload = pre ++ b :: suf →
      b' < 256 → b' ≠ b →
      Packet.parse (frameBytes pt (payload.length + 24) (pre ++ b' :: suf)
          (crc32 payload) m r0 r1 0x00 0xFF rest) = .err .crcMismatch) ∧
    (c ≠ crc32 payload →
      Packet.parse (frameBytes pt (payload.length + 24) payload c
          m r0 r1 0x00 0xFF rest) = .err .crcMismatch) := by
  refine ⟨?_, ?_, ?_⟩
  · intro r hr
    by_cases hcrc : crc32 payload = c
    · exact hcrc.symm
    · rw [Packet_parse_frame pt _ payload c m r0 r1 0x00 0xFF rest hpt hps rfl hc hm,
        if_pos (show ([0, 255] : Bytes) = FrameTail.magic from rfl), if_neg hcrc] at hr
      cases hr
  · intro pre suf b b' hpl hb' hne
    have hlen : (pre ++ b' :: suf).length = payload.length := by
      rw [hpl]
      simp
    have hbytes' : BytesOk (pre ++ b' :: suf) := by
      intro x hx
      rcases List.mem_append.mp hx with hx | hx
      · exact hbytes x (by rw [hpl]; simp [hx])
      · rcases List.mem_cons.mp hx with hx | hx
        · exact hx ▸ hb'
        · exact hbytes x (by rw [hpl]; simp [hx])
    have hflip : crc32 (pre ++ b' :: suf) ≠ crc32 payload := by
      rw [hpl]
      have hmem : ∀ x ∈ payload, x < 2 ^ 32 :=
        fun x hx => lt_trans (hbytes x hx) (by norm_num)
      refine crc32_flip pre suf b' b
        (fun x hx => hmem x (by rw [hpl]; simp [hx]))
        (fun x hx => hmem x (by rw [hpl]; simp [hx]))
        (lt_trans hb' (by norm_num))
        (hmem b (by rw [hpl]; simp))
        hne
    rw [show payload.length + 24 = (pre ++ b' :: suf).length + 24 by rw [hlen]]
    rw [Packet_parse_frame pt _ (pre ++ b' :: suf) (crc32 payload) m r0 r1 0x00 0xFF rest
      hpt (by rw [hlen]; exact hps) rfl (crc32_lt hbytes) hm]
    rw [if_pos (show ([0, 255] : Bytes) = FrameTail.magic from rfl), if_neg hflip]
  · intro hcne
    rw [Packet_parse_frame pt _ payload c m r0 r1 0x00 0xFF rest hpt hps rfl hc hm,
      if_pos (show ([0, 255] : Bytes) = FrameTail.magic from rfl),
      if_neg (fun he => hcne he.symm)]

/-- Claim C2 witness: for the one-byte payload `[7]`, flipping the byte to
`8` under the original checksum fails with a CRC mismatch, and storing
checksum `0` (which differs from `crc32 [7]`) over the intact payload also
fails with a CRC mismatch. -/
theorem claim_C2_witness :
    Packet.parse (frameBytes 2001 25 [8] (crc32 [7]) 0 0 0 0x00 0xFF [])
        = .err .crcMismatch ∧
    Packet.parse (frameBytes 2001 25 [7] 0 0 0 0 0x00 0xFF [])
        = .err .crcMismatch := by
  constructor
  · exact (claim_C2_crc_payload_only 2001 0 0 0 (crc32 [7]) [7] []
      (by decide) (by decide) (crc32_lt (by decide)) (by decide) (by decide)).2.1
      [] [] 7 8 rfl (by decide) (by decide)
  · exact (claim_C2_crc_payload_only 2001 0 0 0 0 [7] []
      (by decide) (by decide) (by decide) (by decide) (by decide)).2.2
      (by decide)

end L2Protocol
